import Mathlib

/-! Verification of `arch/x86/kernel/dtrace_util.c`.

A shallow embedding of the x86 DTrace utility functions: the invalid-operation
handler registry (`dtrace_invop_add`, `dtrace_invop_remove`), the trap
notifier (`dtrace_die_notifier`), the bad-address handler
(`dtrace_handle_badaddr`) and the user stack walker
(`dtrace_user_stacktrace`, `dtrace_user_addr_is_exec`).

Conventions.
* `unsigned long` values are natural numbers below `2 ^ 64`; arithmetic on
  them is reduced modulo `2 ^ 64` where the source does arithmetic.
* `int` counters that are only decremented, incremented and tested against
  zero (`limit`, `depth`) are kept as their 32-bit pattern (a natural number
  below `2 ^ 32`; a non-negative `int` is its own pattern, `-1` is
  `2 ^ 32 - 1`).
* A pointer into the user stack is the natural number of its address, below
  `2 ^ 64`; `sp++` on an `unsigned long *` adds 8 modulo `2 ^ 64`.
* The stack walk is a loop that the source does not bound (the cursor can
  wrap round the address space below a `dt_ustack` at its very top), so the
  walk takes a bound on the number of times its body runs and gives `none`
  when the bound is used up; the claims are proved for every bound that is
  large enough.
* Constants, macros and helpers that live in headers outside this file are
  fields of the parameter structures `kconsts`, `trap_env`, `mm_env` and
  `task_env`.
-/

namespace DtraceUtil

/-- The address of a handler function, `uint8_t (*)(struct pt_regs *)`.
Handlers are compared by address in `dtrace_invop_remove`. -/
abbrev invop_fn := Nat

/-- The saved register state `struct pt_regs` (the fields a handler or this
file can touch). -/
structure pt_regs where
  ip : Nat
  sp : Nat
  bp : Nat
  ax : Nat
  cs : Nat
  flags : Nat
deriving DecidableEq, Repr

/-- Constants of the kernel headers used by this file; their values are not
part of this file. -/
structure kconsts where
  NOTIFY_DONE : Nat
  NOTIFY_OK : Nat
  NOTIFY_STOP_MASK : Nat
  notifier_from_errno : Int → Int
  DTRACE_INVOP_NOPS : Nat
  DTRACE_INVOP_MOV_RSP_RBP : Nat
  DTRACE_INVOP_NOP : Nat
  DTRACE_INVOP_PUSH_BP : Nat
  DTRACE_INVOP_RET : Nat
  ASM_CALL_SIZE : Nat
  CPU_DTRACE_NOFAULT : Nat
  CPU_DTRACE_BADADDR : Nat
  ENOMEM : Nat

/-- What the trap notifier reads from its surroundings: the header constants,
the behaviour of every handler function (result byte and the registers it
leaves), the bytes of kernel text, the instruction decoder
(`insn_complete`, `insn.length` after `insn_get_length`) and `read_cr2()`. -/
structure trap_env where
  K : kconsts
  hdlr_code : invop_fn → pt_regs → Nat × pt_regs
  text : Nat → Nat
  insn_get_length : Nat → Bool × Nat
  read_cr2 : Nat

/-- The state the trap notifier can change: `dargs->regs`, `dargs->trapnr`,
the per-CPU `cpuc_dtrace_flags` and `cpuc_dtrace_illval`, and (as a record of
the run) the handler calls made so far, each with the byte it returned. -/
structure trap_state where
  regs : pt_regs
  trapnr : Int
  cpuc_dtrace_flags : Nat
  cpuc_dtrace_illval : Nat
  calls : List (invop_fn × Nat)
deriving DecidableEq, Repr

/-- The `val` argument of the notifier: the four kinds the switch names, and
every other value. -/
inductive die_val where
  | DIE_PAGE_FAULT
  | DIE_GPF
  | DIE_TRAP
  | DIE_INT3
  | DIE_OTHER (n : Nat)
deriving DecidableEq, Repr

/-- Outcome of code that can hit `BUG_ON`: `returned` with the return value
and the state, or `BUG` with the state at the failed assertion. -/
inductive outcome (α : Type) where
  | returned (rv : α) (s : trap_state)
  | BUG (s : trap_state)
deriving DecidableEq, Repr

/-! ## Instruction length and the bad-address handler -/

/-- Lines 29-37: `insn_complete(&insn) ? insn.length : -1`. -/
def dtrace_instr_size (E : trap_env) (addr : Nat) : Int :=
  if (E.insn_get_length addr).1 then ((E.insn_get_length addr).2 : Int) else -1

/-- Lines 44-52: `BUG_ON(delta <= 0); regs->ip += delta;`. -/
def dtrace_skip_instruction (E : trap_env) (s : trap_state) : outcome Unit :=
  let delta := dtrace_instr_size E s.regs.ip
  if delta ≤ 0 then outcome.BUG s
  else outcome.returned () { s with regs := { s.regs with ip := (s.regs.ip + delta.toNat) % 2 ^ 64 } }

/-- The macro `DTRACE_CPUFLAG_ISSET(flag)`: `cpuc_dtrace_flags & flag`. -/
def DTRACE_CPUFLAG_ISSET (s : trap_state) (flag : Nat) : Bool :=
  (s.cpuc_dtrace_flags &&& flag) != 0

/-- The macro `DTRACE_CPUFLAG_SET(flag)`: `cpuc_dtrace_flags |= flag`. -/
def DTRACE_CPUFLAG_SET (s : trap_state) (flag : Nat) : trap_state :=
  { s with cpuc_dtrace_flags := s.cpuc_dtrace_flags ||| flag }

/-- Lines 54-62. -/
def dtrace_handle_badaddr (E : trap_env) (s : trap_state) : outcome Unit :=
  let addr := E.read_cr2
  let s1 := DTRACE_CPUFLAG_SET s E.K.CPU_DTRACE_BADADDR
  let s2 := { s1 with cpuc_dtrace_illval := addr }
  dtrace_skip_instruction E s2

/-! ## The handler registry -/

/-- The list `dtrace_invop_hdlrs`, head first: the `dtih_func` of each node. -/
abbrev invop_hdlrs := List invop_fn

/-- Lines 233-248. `alloc_ok` says whether `kmalloc` returned a node. The
result is the return value and the new list head. -/
def dtrace_invop_add (K : kconsts) (alloc_ok : Bool) (func : invop_fn)
    (dtrace_invop_hdlrs : invop_hdlrs) : Int × invop_hdlrs :=
  if !alloc_ok then (-(K.ENOMEM : Int), dtrace_invop_hdlrs)
  else (0, func :: dtrace_invop_hdlrs)

/-- The scan of lines 258-274: `before` holds the nodes already passed (the
last of them is `prev`), `hdlr` is the rest of the list starting at the
current node. Reaching the end returns with the list as it was; at the first
node whose function is `func` that node is unlinked (`prev->dtih_next` or the
list head is set to `hdlr->dtih_next`). -/
def invop_remove_scan (func : invop_fn) : invop_hdlrs → invop_hdlrs → invop_hdlrs
  | before, [] => before
  | before, h :: next =>
    if h = func then before ++ next
    else invop_remove_scan func (before ++ [h]) next

/-- Lines 254-275. -/
def dtrace_invop_remove (func : invop_fn) (dtrace_invop_hdlrs : invop_hdlrs) : invop_hdlrs :=
  invop_remove_scan func [] dtrace_invop_hdlrs

/-- What the handler loop leaves behind: `rval`, the registers, and the calls
made (handler and returned byte), oldest first. -/
structure invop_result where
  rval : Nat
  regs : pt_regs
  calls : List (invop_fn × Nat)
deriving DecidableEq, Repr

/-- The loop of lines 137-142 (and, word for word, 191-196): call each
handler from the head, keep its `uint8_t` result in `rval`, leave at the
first non-zero result. -/
def invop_loop (code : invop_fn → pt_regs → Nat × pt_regs) :
    invop_hdlrs → Nat → pt_regs → List (invop_fn × Nat) → invop_result
  | [], rval, regs, calls => ⟨rval, regs, calls⟩
  | h :: next, _, regs, calls =>
    let rval := (code h regs).1 % 256
    if rval ≠ 0 then ⟨rval, (code h regs).2, calls ++ [(h, rval)]⟩
    else invop_loop code next rval (code h regs).2 (calls ++ [(h, rval)])

/-- The loop started as the source starts it: `rval = 0`, from the list head. -/
def invop_dispatch (code : invop_fn → pt_regs → Nat × pt_regs)
    (dtrace_invop_hdlrs : invop_hdlrs) (regs : pt_regs) : invop_result :=
  invop_loop code dtrace_invop_hdlrs 0 regs []

/-! ## The trap notifier -/

/-- The value `NOTIFY_OK | NOTIFY_STOP_MASK`. -/
def NOTIFY_STOP (K : kconsts) : Int := ((K.NOTIFY_OK ||| K.NOTIFY_STOP_MASK : Nat) : Int)

/-- Lines 82-87 and 115-120: decline unless `CPU_DTRACE_NOFAULT` is set, else
run the bad-address handler and stop the notifier chain. -/
def nofault_path (E : trap_env) (s : trap_state) : outcome Int :=
  if !DTRACE_CPUFLAG_ISSET s E.K.CPU_DTRACE_NOFAULT then
    outcome.returned (E.K.NOTIFY_DONE : Int) s
  else
    match dtrace_handle_badaddr E s with
    | outcome.BUG s1 => outcome.BUG s1
    | outcome.returned _ s1 => outcome.returned (NOTIFY_STOP E.K) s1

/-- Lines 130-176, the body of `case DIE_TRAP`, entered with the value of
`orig_trapnr` (0 from the top of the function, the saved trap number when
falling through from `case DIE_GPF`). -/
def case_DIE_TRAP (E : trap_env) (dtrace_invop_hdlrs : invop_hdlrs) (orig_trapnr : Int)
    (s : trap_state) : outcome Int :=
  if s.trapnr ≠ 6 then outcome.returned (E.K.NOTIFY_DONE : Int) s
  else
    let r := invop_dispatch E.hdlr_code dtrace_invop_hdlrs s.regs
    let s1 := { s with regs := r.regs, calls := s.calls ++ r.calls }
    if r.rval = E.K.DTRACE_INVOP_NOPS then
      outcome.returned (NOTIFY_STOP E.K)
        { s1 with regs := { s1.regs with ip := (s1.regs.ip + E.K.ASM_CALL_SIZE) % 2 ^ 64 } }
    else if r.rval = E.K.DTRACE_INVOP_MOV_RSP_RBP ∨ r.rval = E.K.DTRACE_INVOP_NOP
        ∨ r.rval = E.K.DTRACE_INVOP_PUSH_BP ∨ r.rval = E.K.DTRACE_INVOP_RET then
      outcome.returned (E.K.notifier_from_errno (-(r.rval : Int))) s1
    else
      outcome.returned (E.K.NOTIFY_DONE : Int)
        (if orig_trapnr ≠ 0 then { s1 with trapnr := orig_trapnr } else s1)

/-- Lines 177-226, the body of `case DIE_INT3`; its `default` label falls
through to the `default` of the outer switch. -/
def case_DIE_INT3 (E : trap_env) (dtrace_invop_hdlrs : invop_hdlrs) (s : trap_state) :
    outcome Int :=
  let s0 := { s with regs := { s.regs with ip := (s.regs.ip + 2 ^ 64 - 1) % 2 ^ 64 } }
  let r := invop_dispatch E.hdlr_code dtrace_invop_hdlrs s0.regs
  let s1 := { s0 with regs := r.regs, calls := s0.calls ++ r.calls }
  if r.rval = E.K.DTRACE_INVOP_NOPS then
    outcome.returned (NOTIFY_STOP E.K)
      { s1 with regs := { s1.regs with ip := (s1.regs.ip + E.K.ASM_CALL_SIZE) % 2 ^ 64 } }
  else if r.rval = E.K.DTRACE_INVOP_MOV_RSP_RBP ∨ r.rval = E.K.DTRACE_INVOP_NOP
      ∨ r.rval = E.K.DTRACE_INVOP_PUSH_BP ∨ r.rval = E.K.DTRACE_INVOP_RET then
    outcome.returned (E.K.notifier_from_errno (-(r.rval : Int))) s1
  else
    outcome.returned (E.K.NOTIFY_DONE : Int)
      { s1 with regs := { s1.regs with ip := (s1.regs.ip + 1) % 2 ^ 64 } }

/-- Lines 74-228. -/
def dtrace_die_notifier (E : trap_env) (dtrace_invop_hdlrs : invop_hdlrs) (val : die_val)
    (s : trap_state) : outcome Int :=
  match val with
  | die_val.DIE_PAGE_FAULT => nofault_path E s
  | die_val.DIE_GPF =>
    let opc := E.text s.regs.ip
    if opc ≠ 0xf0 ∧ opc ≠ 0x55 ∧ opc ≠ 0xc3 then nofault_path E s
    else
      let orig_trapnr := s.trapnr
      case_DIE_TRAP E dtrace_invop_hdlrs orig_trapnr { s with trapnr := 6 }
  | die_val.DIE_TRAP => case_DIE_TRAP E dtrace_invop_hdlrs 0 s
  | die_val.DIE_INT3 => case_DIE_INT3 E dtrace_invop_hdlrs s
  | die_val.DIE_OTHER _ => outcome.returned (E.K.NOTIFY_DONE : Int) s

/-! ## The user stack walker -/

/-- The page-table accessors `dtrace_user_addr_is_exec` calls, all from
headers outside this file: `current->mm`, the `*_offset` pointer computations,
the fault-tolerant `probe_kernel_address` (true when the read faults), the
entry stored at a table pointer (`load`), and the predicates on entries. -/
structure mm_env where
  mm : Option Nat
  PAGE_MASK : Nat
  CONFIG_PGTABLE_LEVELS : Nat
  pgd_offset : Nat → Nat → Nat
  p4d_offset : Nat → Nat → Nat
  pud_offset : Nat → Nat → Nat
  pmd_offset : Nat → Nat → Nat
  pte_offset_map : Nat → Nat → Nat
  probe_kernel_address : Nat → Bool
  load : Nat → Nat
  pgd_none : Nat → Bool
  pgd_present : Nat → Bool
  p4d_none : Nat → Bool
  p4d_present : Nat → Bool
  pud_none : Nat → Bool
  pud_present : Nat → Bool
  pud_large : Nat → Bool
  pmd_none : Nat → Bool
  pmd_large : Nat → Bool
  pmd_present : Nat → Bool
  pte_protnone : Nat → Bool
  pte_flags : Nat → Nat
  pte_exec : Nat → Int
  _PAGE_PRESENT : Nat
  _PAGE_USER : Nat
  _PAGE_SPECIAL : Nat

/-- Lines 301-306. -/
def dtrace_bad_address (M : mm_env) (addr : Nat) : Bool :=
  M.probe_kernel_address addr

/-- Lines 348-384 of `dtrace_user_addr_is_exec`: the walk from the `pud`
pointer down; every `goto out` returns the current `ret`, which is 0 until a
`pte_exec` is taken. -/
def user_addr_is_exec_from_pud (M : mm_env) (pud addr : Nat) : Int :=
  if dtrace_bad_address M pud then 0
  else if M.pud_none (M.load pud) || !M.pud_present (M.load pud) then 0
  else if M.pud_large (M.load pud) then
    let pte := pud
    if dtrace_bad_address M pte then 0 else M.pte_exec (M.load pte)
  else
    let pmd := M.pmd_offset pud addr
    if dtrace_bad_address M pmd then 0
    else if M.pmd_none (M.load pmd) then 0
    else if M.pmd_large (M.load pmd) || !M.pmd_present (M.load pmd) then
      let pte := pmd
      if dtrace_bad_address M pte then 0 else M.pte_exec (M.load pte)
    else
      let pte := M.pte_offset_map pmd addr
      if dtrace_bad_address M pte then 0
      else if M.pte_protnone (M.load pte) then 0
      else if (M.pte_flags (M.load pte) &&& (M._PAGE_PRESENT ||| M._PAGE_USER ||| M._PAGE_SPECIAL))
          ≠ (M._PAGE_PRESENT ||| M._PAGE_USER) then 0
      else M.pte_exec (M.load pte)

/-- Lines 308-390. -/
def dtrace_user_addr_is_exec (M : mm_env) (addr0 : Nat) : Int :=
  match M.mm with
  | none => 0
  | some mm =>
    let addr := addr0 &&& M.PAGE_MASK
    let pgd := M.pgd_offset mm addr
    if dtrace_bad_address M pgd then 0
    else if M.pgd_none (M.load pgd) || !M.pgd_present (M.load pgd) then 0
    else if M.CONFIG_PGTABLE_LEVELS > 3 then
      let p4d := M.p4d_offset pgd addr
      if dtrace_bad_address M p4d then 0
      else if M.p4d_none (M.load p4d) || !M.p4d_present (M.load p4d) then 0
      else user_addr_is_exec_from_pud M (M.pud_offset p4d addr) addr
    else user_addr_is_exec_from_pud M (M.pud_offset pgd addr) addr

/-- What `dtrace_user_stacktrace` reads from its surroundings:
`current_pt_regs()`, `user_mode`, `current->dt_task` (absent, or present with
its `dt_ustack`), the fault-tolerant `__copy_from_user_inatomic` of one word
(`none` when it returns non-zero), and the page tables. -/
structure task_env where
  regs : pt_regs
  user_mode : pt_regs → Bool
  dt_task : Option Nat
  copy_from_user : Nat → Option Nat
  M : mm_env

/-- The request `struct stacktrace_state`, as far as this function uses it.
The field `pcs` is `none` for a NULL buffer; otherwise it lists the values
stored through the buffer cursor, slot 0 first (a caller passes `some []`). -/
structure stacktrace_state where
  pcs : Option (List Nat)
  limit : Nat
  depth : Nat
deriving DecidableEq, Repr

/-- The variables of the walk: the cursor `sp`, the local `limit`,
`st->depth`, the buffer cursor `pcs`, and (as a record of the run) the user
addresses read so far. -/
structure walk_state where
  sp : Nat
  limit : Nat
  depth : Nat
  pcs : Option (List Nat)
  reads : List Nat
deriving DecidableEq, Repr

/-- The store `if (pcs) *pcs++ = v`. -/
def pcs_store (pcs : Option (List Nat)) (v : Nat) : Option (List Nat) :=
  pcs.map (fun ws => ws ++ [v])

/-- The statement `limit--` on an `int`. -/
def int_dec (limit : Nat) : Nat := (limit + 2 ^ 32 - 1) % 2 ^ 32

/-- The statement `st->depth++` on an `int`. -/
def int_inc (depth : Nat) : Nat := (depth + 1) % 2 ^ 32

/-- The statement `sp++` on an `unsigned long *`: eight bytes on, modulo
`2 ^ 64`. -/
def ptr_inc (sp : Nat) : Nat := (sp + 8) % 2 ^ 64

/-- The loop of lines 417-435. The first argument bounds the number of times
the body runs; the result is `none` when the bound is used up while the loop
condition still holds. -/
def ustack_walk (T : task_env) (bos : Nat) : Nat → walk_state → Option walk_state
  | 0, w => if w.sp ≤ bos ∧ w.limit ≠ 0 then none else some w
  | fuel + 1, w =>
    if w.sp ≤ bos ∧ w.limit ≠ 0 then
      match T.copy_from_user w.sp with
      | none => some { w with reads := w.reads ++ [w.sp] }
      | some pc =>
        if dtrace_user_addr_is_exec T.M pc ≠ 0 then
          ustack_walk T bos fuel
            { sp := ptr_inc w.sp, limit := int_dec w.limit, depth := int_inc w.depth,
              pcs := pcs_store w.pcs pc, reads := w.reads ++ [w.sp] }
        else
          ustack_walk T bos fuel { w with sp := ptr_inc w.sp, reads := w.reads ++ [w.sp] }
    else some w

/-- The loop `while (limit--) *pcs++ = 0;` of lines 439-440, on the 32-bit
pattern of `limit`: a zero pattern leaves, any other stores one zero and goes
on with the pattern one less. -/
def zero_fill : Nat → List Nat → List Nat
  | 0, ws => ws
  | l + 1, ws => zero_fill l (ws ++ [0])

/-- The label `out:` of lines 437-441. -/
def stacktrace_out (limit : Nat) (pcs : Option (List Nat)) : Option (List Nat) :=
  pcs.map (zero_fill limit)

/-- Lines 392-442. `fuel` is the bound handed to the walk. The result is the
request afterwards (`depth`, and in `pcs` the values stored in the buffer)
together with the user addresses read; it is `none` when the walk does not
end within the bound. -/
def dtrace_user_stacktrace (T : task_env) (fuel : Nat) (st : stacktrace_state) :
    Option (stacktrace_state × List Nat) :=
  let regs := T.regs
  let sp := regs.sp
  if !T.user_mode regs then some (⟨stacktrace_out st.limit st.pcs, st.limit, st.depth⟩, [])
  else
    match T.dt_task with
    | none => some (⟨stacktrace_out st.limit st.pcs, st.limit, st.depth⟩, [])
    | some bos =>
      let pcs := pcs_store st.pcs regs.ip
      let limit := int_dec st.limit
      if limit = 0 then some (⟨stacktrace_out limit pcs, st.limit, 1⟩, [])
      else
        match ustack_walk T bos fuel ⟨sp, limit, 1, pcs, []⟩ with
        | none => none
        | some w => some (⟨stacktrace_out w.limit w.pcs, st.limit, w.depth⟩, w.reads)

/-! ## The code patch primitive -/

/-- Modelled from the spec: `text_poke(addr, opcode, len)` of the kernel's
text-patching code, which is not in this file. The spec has it write the
bytes at `addr` and nothing else; the text memory is a map from addresses to
bytes. -/
def text_poke (text : Nat → Nat) (addr : Nat) (opcode : List Nat) (len : Nat) : Nat → Nat :=
  fun a => if addr ≤ a ∧ a < addr + len then opcode.getD (a - addr) (text a) else text a

/-- Lines 282-287: `text_poke(addr, ((unsigned char []){opcode}), 1)` between
`mutex_lock(&text_mutex)` and `mutex_unlock(&text_mutex)`. -/
def dtrace_invop_enable (text : Nat → Nat) (addr opcode : Nat) : Nat → Nat :=
  text_poke text addr [opcode] 1

/-- Lines 293-298, the same three statements. -/
def dtrace_invop_disable (text : Nat → Nat) (addr opcode : Nat) : Nat → Nat :=
  text_poke text addr [opcode] 1

/-! ## Vocabulary of the claims -/

/-- The state an outcome ends in, returned or not. -/
def outcome.state {α : Type} : outcome α → trap_state
  | outcome.returned _ s => s
  | outcome.BUG s => s

/-- A handler result the inner switch has a `case` label for: the event is
claimed by a probe. -/
def invop_claimed (K : kconsts) (rval : Nat) : Prop :=
  rval = K.DTRACE_INVOP_NOPS ∨ rval = K.DTRACE_INVOP_MOV_RSP_RBP ∨ rval = K.DTRACE_INVOP_NOP
    ∨ rval = K.DTRACE_INVOP_PUSH_BP ∨ rval = K.DTRACE_INVOP_RET

instance (K : kconsts) (rval : Nat) : Decidable (invop_claimed K rval) := by
  unfold invop_claimed; infer_instance

/-- The probe result codes are non-zero: zero is what a handler returns for an
event that is not its own. -/
def invop_codes_nonzero (K : kconsts) : Prop :=
  K.DTRACE_INVOP_NOPS ≠ 0 ∧ K.DTRACE_INVOP_MOV_RSP_RBP ≠ 0 ∧ K.DTRACE_INVOP_NOP ≠ 0
    ∧ K.DTRACE_INVOP_PUSH_BP ≠ 0 ∧ K.DTRACE_INVOP_RET ≠ 0

instance (K : kconsts) : Decidable (invop_codes_nonzero K) := by
  unfold invop_codes_nonzero; infer_instance

/-- The opcode bytes for which a general-protection fault is taken for an
invalid-opcode trap (line 114). -/
def gpf_reclassified (opc : Nat) : Prop := opc = 0xf0 ∨ opc = 0x55 ∨ opc = 0xc3

instance (opc : Nat) : Decidable (gpf_reclassified opc) := by
  unfold gpf_reclassified; infer_instance

/-- The cursor positions of the stack walk when nothing stops it early: `sp`,
`sp + 8`, ... up to and including the last one not above `bos`. -/
def stack_cursors (sp bos : Nat) : List Nat :=
  (List.range ((bos + 8 - sp) / 8)).map (fun i => sp + 8 * i)

/-- The words at the cursor positions that can be read and pass the
executable-user-page check, in ascending stack order. -/
def accepted_words (T : task_env) (sp bos : Nat) : List Nat :=
  ((stack_cursors sp bos).filterMap T.copy_from_user).filter
    (fun pc => dtrace_user_addr_is_exec T.M pc ≠ 0)

/-- The first `k` cursor positions of the stack walk from `sp`. -/
def first_cursors (sp k : Nat) : List Nat :=
  (List.range k).map (fun i => sp + 8 * i)

/-- The words at the first `k` cursor positions that can be read and pass
the executable-user-page check, in ascending stack order. -/
def accepted_first (T : task_env) (sp k : Nat) : List Nat :=
  ((first_cursors sp k).filterMap T.copy_from_user).filter
    (fun pc => dtrace_user_addr_is_exec T.M pc ≠ 0)

/-! ## Sample instances -/

/-- Sample values for the header constants. -/
def sample_consts : kconsts where
  NOTIFY_DONE := 0
  NOTIFY_OK := 1
  NOTIFY_STOP_MASK := 0x8000
  notifier_from_errno := fun err => if err = 0 then 1 else ((0x8000 ||| (1 - err).toNat : Nat) : Int)
  DTRACE_INVOP_NOPS := 5
  DTRACE_INVOP_MOV_RSP_RBP := 1
  DTRACE_INVOP_NOP := 2
  DTRACE_INVOP_PUSH_BP := 3
  DTRACE_INVOP_RET := 4
  ASM_CALL_SIZE := 5
  CPU_DTRACE_NOFAULT := 1
  CPU_DTRACE_BADADDR := 4
  ENOMEM := 12

/-- Sample surroundings: handler 7 claims nothing and handler 9 claims a
one-byte NOP probe at address `0x3000`, neither touches the registers; the
text holds a LOCK prefix at `0x1000` and NOPs elsewhere; the decoder fails at
`0x2000` and finds one-byte instructions elsewhere. -/
def sample_env : trap_env where
  K := sample_consts
  hdlr_code := fun f regs => if f = 9 ∧ regs.ip = 0x3000 then (2, regs) else (0, regs)
  text := fun a => if a = 0x1000 then 0xf0 else 0x90
  insn_get_length := fun a => if a = 0x2000 then (false, 0) else (true, 1)
  read_cr2 := 0xdead000

/-- A sample trap state with the given instruction pointer, trap number and
per-CPU flags. -/
def sample_state (ip : Nat) (trapnr : Int) (cpu_flags : Nat) : trap_state where
  regs := ⟨ip, 0x7ffd0000, 0x7ffd0040, 0, 0x10, 0x246⟩
  trapnr := trapnr
  cpuc_dtrace_flags := cpu_flags
  cpuc_dtrace_illval := 0
  calls := []

/-- Sample page tables: four levels, every table readable and present, no
large mappings; the one page at `0x400000` is present, user and executable,
every other page is not present. -/
def sample_mm : mm_env where
  mm := some 0
  PAGE_MASK := 0xfffffffffffff000
  CONFIG_PGTABLE_LEVELS := 4
  pgd_offset := fun _ addr => addr
  p4d_offset := fun p _ => p
  pud_offset := fun p _ => p
  pmd_offset := fun p _ => p
  pte_offset_map := fun p _ => p
  probe_kernel_address := fun _ => false
  load := fun p => p
  pgd_none := fun _ => false
  pgd_present := fun _ => true
  p4d_none := fun _ => false
  p4d_present := fun _ => true
  pud_none := fun _ => false
  pud_present := fun _ => true
  pud_large := fun _ => false
  pmd_none := fun _ => false
  pmd_large := fun _ => false
  pmd_present := fun _ => true
  pte_protnone := fun _ => false
  pte_flags := fun e => if e = 0x400000 then 5 else 0
  pte_exec := fun _ => 1
  _PAGE_PRESENT := 1
  _PAGE_USER := 4
  _PAGE_SPECIAL := 0x200

/-- A sample user task stopped at `0x400123` with three readable stack words
between `sp = 0x7ffd0000` and `dt_ustack = 0x7ffd0010`: a return address, a
garbage word, a return address. -/
def sample_task : task_env where
  regs := ⟨0x400123, 0x7ffd0000, 0x7ffd0040, 0, 0x33, 0x246⟩
  user_mode := fun r => r.cs &&& 3 == 3
  dt_task := some 0x7ffd0010
  copy_from_user := fun a =>
    if a = 0x7ffd0000 then some 0x400456
    else if a = 0x7ffd0008 then some 0x1234
    else if a = 0x7ffd0010 then some 0x400789
    else none
  M := sample_mm

/-- The sample task with the stack pointer above `dt_ustack`, so that the
walk reads no word. -/
def sample_task_empty_stack : task_env :=
  { sample_task with regs := ⟨0x400123, 0x7ffd0018, 0x7ffd0040, 0, 0x33, 0x246⟩ }

/-- Sample page tables with the x86 meaning of the entry bits (bit 0
present, bit 2 user, bit 7 large page, bit 8 global or PROT_NONE, bit 9
special, bit 63 no-execute). The one table of each level sits at the pointers
1 (pgd), 2 (p4d), 3 (pud), 4 (pmd), 5 (pte) and holds the entry `tables`
gives for that pointer. -/
def sample_mm_x86 (tables : Nat → Nat) : mm_env where
  mm := some 0
  PAGE_MASK := 0xfffffffffffff000
  CONFIG_PGTABLE_LEVELS := 4
  pgd_offset := fun _ _ => 1
  p4d_offset := fun _ _ => 2
  pud_offset := fun _ _ => 3
  pmd_offset := fun _ _ => 4
  pte_offset_map := fun _ _ => 5
  probe_kernel_address := fun _ => false
  load := tables
  pgd_none := fun e => e == 0
  pgd_present := fun e => e &&& 1 != 0
  p4d_none := fun e => e == 0
  p4d_present := fun e => e &&& 1 != 0
  pud_none := fun e => e == 0
  pud_present := fun e => e &&& 1 != 0
  pud_large := fun e => e &&& 0x81 == 0x81
  pmd_none := fun e => e == 0
  pmd_large := fun e => e &&& 0x80 != 0
  pmd_present := fun e => e &&& 0x181 != 0
  pte_protnone := fun e => e &&& 0x101 == 0x100
  pte_flags := fun e => e &&& 0x8000000000000fff
  pte_exec := fun e => if e &&& 0x8000000000000000 = 0 then 1 else 0
  _PAGE_PRESENT := 1
  _PAGE_USER := 4
  _PAGE_SPECIAL := 0x200

/-- Upper levels present and user-accessible (`0x67`); the pmd entry `0x1000`
is neither empty nor present (no present, PROT_NONE or large bit) and has the
no-execute bit clear. -/
def tables_pmd_not_present (p : Nat) : Nat :=
  if p = 4 then 0x1000 else 0x67

/-- Upper levels present; the pmd entry `0x1e3` is a present large page
without the user bit (a kernel mapping) and with the no-execute bit clear. -/
def tables_pmd_large_kernel (p : Nat) : Nat :=
  if p = 4 then 0x1e3 else 0x67

/-- Upper levels present; the pud entry `0x1e3` is a present large page
without the user bit and with the no-execute bit clear. -/
def tables_pud_large_kernel (p : Nat) : Nat :=
  if p = 3 then 0x1e3 else 0x67

/-- A sample user task whose second stack word cannot be read: a return
address at `0x7ffd0000`, a fault at `0x7ffd0008`, and a return address at
`0x7ffd0010` that the walk must not reach. -/
def sample_task_fault : task_env :=
  { sample_task with
    copy_from_user := fun a =>
      if a = 0x7ffd0000 then some 0x400456
      else if a = 0x7ffd0010 then some 0x400789
      else none }

/-- A sample text memory: a `push %rbp` byte at `0x1000`, NOPs elsewhere. -/
def sample_text (a : Nat) : Nat := if a = 0x1000 then 0x55 else 0x90

/-- A sample user task whose stack pointer is the last word of the address
space and whose `dt_ustack` is the last byte: every address can be read and
holds a return address into the executable page. -/
def sample_task_top : task_env :=
  { sample_task with
    regs := ⟨0x400123, 0xfffffffffffffff8, 0x7ffd0040, 0, 0x33, 0x246⟩
    dt_task := some 0xffffffffffffffff
    copy_from_user := fun _ => some 0x400456 }

/-! ## Lemmas on the handler loop -/

theorem invop_loop_calls (code : invop_fn → pt_regs → Nat × pt_regs) (l : invop_hdlrs) :
    ∀ (rv : Nat) (regs : pt_regs) (calls : List (invop_fn × Nat)),
      invop_loop code l rv regs calls =
        ⟨(invop_loop code l rv regs []).rval, (invop_loop code l rv regs []).regs,
          calls ++ (invop_loop code l rv regs []).calls⟩ := by
  induction l with
  | nil => intro rv regs calls; simp [invop_loop]
  | cons h t ih =>
    intro rv regs calls
    by_cases hb : (code h regs).1 % 256 = 0
    · simp only [invop_loop, hb, ne_eq, not_true_eq_false, if_false, List.nil_append]
      rw [ih 0 _ (calls ++ [(h, 0)]), ih 0 _ [(h, 0)]]
      simp
    · simp [invop_loop, hb]

theorem invop_dispatch_nil (code : invop_fn → pt_regs → Nat × pt_regs) (regs : pt_regs) :
    invop_dispatch code [] regs = ⟨0, regs, []⟩ := rfl

theorem invop_dispatch_cons_claim (code : invop_fn → pt_regs → Nat × pt_regs) (h : invop_fn)
    (t : invop_hdlrs) (regs : pt_regs) (hb : (code h regs).1 % 256 ≠ 0) :
    invop_dispatch code (h :: t) regs =
      ⟨(code h regs).1 % 256, (code h regs).2, [(h, (code h regs).1 % 256)]⟩ := by
  simp [invop_dispatch, invop_loop, hb]

theorem invop_dispatch_cons_pass (code : invop_fn → pt_regs → Nat × pt_regs) (h : invop_fn)
    (t : invop_hdlrs) (regs : pt_regs) (hb : (code h regs).1 % 256 = 0) :
    invop_dispatch code (h :: t) regs =
      ⟨(invop_dispatch code t (code h regs).2).rval, (invop_dispatch code t (code h regs).2).regs,
        (h, 0) :: (invop_dispatch code t (code h regs).2).calls⟩ := by
  simp only [invop_dispatch, invop_loop, hb, ne_eq, not_true_eq_false, if_false, List.nil_append]
  rw [invop_loop_calls]
  simp

theorem invop_dispatch_spec (code : invop_fn → pt_regs → Nat × pt_regs) (R : invop_hdlrs) :
    ∀ regs : pt_regs,
      ((invop_dispatch code R regs).calls.map Prod.fst <+: R) ∧
      (∀ e ∈ (invop_dispatch code R regs).calls.dropLast, e.2 = 0) ∧
      (invop_dispatch code R regs).rval
        = (((invop_dispatch code R regs).calls.getLast?).map Prod.snd).getD 0 ∧
      ((invop_dispatch code R regs).rval = 0 →
        (invop_dispatch code R regs).calls.map Prod.fst = R ∧
        ∀ e ∈ (invop_dispatch code R regs).calls, e.2 = 0) := by
  induction R with
  | nil => intro regs; simp [invop_dispatch_nil]
  | cons h t ih =>
    intro regs
    by_cases hb : (code h regs).1 % 256 = 0
    · rw [invop_dispatch_cons_pass code h t regs hb]
      obtain ⟨h1, h2, h3, h4⟩ := ih (code h regs).2
      refine ⟨?_, ?_, ?_, ?_⟩
      · simpa using h1
      · intro e he
        cases hc : (invop_dispatch code t (code h regs).2).calls with
        | nil => simp [hc] at he
        | cons c cs =>
          rw [hc] at he h2
          rw [List.dropLast_cons₂] at he
          rcases List.mem_cons.1 he with rfl | he
          · rfl
          · exact h2 e he
      · cases hc : (invop_dispatch code t (code h regs).2).calls with
        | nil => rw [hc] at h3; simpa using h3
        | cons c cs =>
          rw [hc] at h3
          rw [h3]
          simp [List.getLast?_cons_cons]
      · intro hz
        obtain ⟨h5, h6⟩ := h4 hz
        refine ⟨by simpa using h5, ?_⟩
        intro e he
        rcases List.mem_cons.1 he with rfl | he
        · rfl
        · exact h6 e he
    · rw [invop_dispatch_cons_claim code h t regs hb]
      refine ⟨by simp, by simp, by simp, ?_⟩
      intro hz
      exact absurd hz hb

/-! ## Claims on the registry and on dispatch order -/

/-- C1: dispatch consults the handlers from the list head, that is most
recently added first. The calls made are an initial segment of the registry in
registry order; every call before the last returned zero; the result is the
byte of the last call, and zero when no call was made; a zero result means
every handler was called and every one returned zero; on the empty registry
the result is zero with no call. A handler with a non-zero byte at the head
ends the dispatch with that byte and no later handler is called; a zero byte
at the head hands the registers it left to the rest of the list. After a
successful `add f` then `add g` the registry is `g :: f :: R`, `g` is called
first on the incoming registers, and `f` is called (second, on the registers
`g` left) exactly when `g` returned zero. -/
theorem C1_dispatch_most_recent_first (K : kconsts)
    (code : invop_fn → pt_regs → Nat × pt_regs) (R : invop_hdlrs) (regs : pt_regs) :
    (((invop_dispatch code R regs).calls.map Prod.fst <+: R) ∧
      (∀ e ∈ (invop_dispatch code R regs).calls.dropLast, e.2 = 0) ∧
      (invop_dispatch code R regs).rval
        = (((invop_dispatch code R regs).calls.getLast?).map Prod.snd).getD 0 ∧
      ((invop_dispatch code R regs).rval = 0 →
        (invop_dispatch code R regs).calls.map Prod.fst = R ∧
        ∀ e ∈ (invop_dispatch code R regs).calls, e.2 = 0)) ∧
    invop_dispatch code [] regs = ⟨0, regs, []⟩ ∧
    (∀ (h : invop_fn) (t : invop_hdlrs),
      ((code h regs).1 % 256 ≠ 0 →
        invop_dispatch code (h :: t) regs =
          ⟨(code h regs).1 % 256, (code h regs).2, [(h, (code h regs).1 % 256)]⟩) ∧
      ((code h regs).1 % 256 = 0 →
        invop_dispatch code (h :: t) regs =
          ⟨(invop_dispatch code t (code h regs).2).rval,
            (invop_dispatch code t (code h regs).2).regs,
            (h, 0) :: (invop_dispatch code t (code h regs).2).calls⟩)) ∧
    (∀ f g : invop_fn,
      (dtrace_invop_add K true g (dtrace_invop_add K true f R).2).2 = g :: f :: R ∧
      (invop_dispatch code (dtrace_invop_add K true g (dtrace_invop_add K true f R).2).2
          regs).calls.head? = some (g, (code g regs).1 % 256) ∧
      ((code g regs).1 % 256 ≠ 0 →
        (invop_dispatch code (dtrace_invop_add K true g (dtrace_invop_add K true f R).2).2
          regs).calls = [(g, (code g regs).1 % 256)]) ∧
      ((code g regs).1 % 256 = 0 →
        (invop_dispatch code (dtrace_invop_add K true g (dtrace_invop_add K true f R).2).2
          regs).calls.tail.head? = some (f, (code f (code g regs).2).1 % 256))) := by
  refine ⟨invop_dispatch_spec code R regs, invop_dispatch_nil code regs, ?_, ?_⟩
  · intro h t
    exact ⟨invop_dispatch_cons_claim code h t regs, invop_dispatch_cons_pass code h t regs⟩
  · intro f g
    have hadd : (dtrace_invop_add K true g (dtrace_invop_add K true f R).2).2 = g :: f :: R := by
      simp [dtrace_invop_add]
    rw [hadd]
    refine ⟨rfl, ?_, ?_, ?_⟩
    · by_cases hb : (code g regs).1 % 256 = 0
      · rw [invop_dispatch_cons_pass code g _ regs hb]; simp [hb]
      · rw [invop_dispatch_cons_claim code g _ regs hb]; simp
    · intro hb
      rw [invop_dispatch_cons_claim code g _ regs hb]
    · intro hb
      rw [invop_dispatch_cons_pass code g _ regs hb]
      by_cases hf : (code f (code g regs).2).1 % 256 = 0
      · rw [invop_dispatch_cons_pass code f _ _ hf]; simp [hf]
      · rw [invop_dispatch_cons_claim code f _ _ hf]; simp

/-! ## Claims on the trap notifier -/

theorem invop_dispatch_ip (code : invop_fn → pt_regs → Nat × pt_regs) (R : invop_hdlrs)
    (hkeep : ∀ f ∈ R, ∀ regs : pt_regs, (code f regs).2.ip = regs.ip) :
    ∀ regs : pt_regs, (invop_dispatch code R regs).regs.ip = regs.ip := by
  induction R with
  | nil => intro regs; rfl
  | cons h t ih =>
    intro regs
    have hh := hkeep h (List.mem_cons_self h t) regs
    by_cases hb : (code h regs).1 % 256 = 0
    · rw [invop_dispatch_cons_pass code h t regs hb]
      simp only
      rw [ih (fun f hf => hkeep f (List.mem_cons_of_mem h hf)), hh]
    · rw [invop_dispatch_cons_claim code h t regs hb]
      exact hh

theorem not_claimed_of_zero (K : kconsts) (hK : invop_codes_nonzero K) (rval : Nat)
    (h : rval = 0 ∨ ¬ invop_claimed K rval) : ¬ invop_claimed K rval := by
  rcases h with h | h
  · subst h
    obtain ⟨h1, h2, h3, h4, h5⟩ := hK
    unfold invop_claimed
    omega
  · exact h

/-- C2: a breakpoint trap that no handler claims (the dispatch result is zero
or any value without a `case` label), with handlers that leave the
instruction pointer alone, is declined with `NOTIFY_DONE` and the instruction
pointer is what it was before the call, also when it was 0 (the decrement
wraps to `2 ^ 64 - 1` and the increment wraps back). Trap number, per-CPU
flags and illegal-value slot are unchanged too. -/
theorem C2_int3_unclaimed_restores_ip (E : trap_env) (R : invop_hdlrs) (s : trap_state)
    (hK : invop_codes_nonzero E.K)
    (hip : s.regs.ip < 2 ^ 64)
    (hkeep : ∀ f ∈ R, ∀ regs : pt_regs, (E.hdlr_code f regs).2.ip = regs.ip)
    (hun : (invop_dispatch E.hdlr_code R
              { s.regs with ip := (s.regs.ip + 2 ^ 64 - 1) % 2 ^ 64 }).rval = 0 ∨
           ¬ invop_claimed E.K (invop_dispatch E.hdlr_code R
              { s.regs with ip := (s.regs.ip + 2 ^ 64 - 1) % 2 ^ 64 }).rval) :
    ∃ s1 : trap_state,
      dtrace_die_notifier E R die_val.DIE_INT3 s = outcome.returned (E.K.NOTIFY_DONE : Int) s1 ∧
      s1.regs.ip = s.regs.ip ∧ s1.trapnr = s.trapnr ∧
      s1.cpuc_dtrace_flags = s.cpuc_dtrace_flags ∧
      s1.cpuc_dtrace_illval = s.cpuc_dtrace_illval := by
  have hnc := not_claimed_of_zero E.K hK _ hun
  have hipk := invop_dispatch_ip E.hdlr_code R hkeep
    { s.regs with ip := (s.regs.ip + 2 ^ 64 - 1) % 2 ^ 64 }
  unfold invop_claimed at hnc
  simp only [not_or] at hnc
  obtain ⟨n1, n2, n3, n4, n5⟩ := hnc
  have hrun : dtrace_die_notifier E R die_val.DIE_INT3 s
      = outcome.returned (E.K.NOTIFY_DONE : Int)
          (outcome.state (dtrace_die_notifier E R die_val.DIE_INT3 s)) := by
    simp only [dtrace_die_notifier, case_DIE_INT3, n1, n2, n3, n4, n5, if_false, or_self,
      outcome.state]
  refine ⟨_, hrun, ?_, ?_, ?_, ?_⟩
  · simp only [dtrace_die_notifier, case_DIE_INT3, n1, n2, n3, n4, n5, if_false, or_self,
      outcome.state]
    simp only [hipk]
    omega
  all_goals
    simp only [dtrace_die_notifier, case_DIE_INT3, n1, n2, n3, n4, n5, if_false, or_self,
      outcome.state]

/-- Witness for C2 at the wrap-around value: a breakpoint reported with
`ip = 0`, two handlers that both return zero. -/
theorem C2_int3_unclaimed_restores_ip_witness :
    ∃ s1 : trap_state,
      dtrace_die_notifier sample_env [7, 9] die_val.DIE_INT3 (sample_state 0 3 0)
        = outcome.returned (sample_env.K.NOTIFY_DONE : Int) s1 ∧
      s1.regs.ip = (sample_state 0 3 0).regs.ip ∧ s1.trapnr = (sample_state 0 3 0).trapnr ∧
      s1.cpuc_dtrace_flags = (sample_state 0 3 0).cpuc_dtrace_flags ∧
      s1.cpuc_dtrace_illval = (sample_state 0 3 0).cpuc_dtrace_illval :=
  C2_int3_unclaimed_restores_ip sample_env [7, 9] (sample_state 0 3 0)
    (by decide) (by decide)
    (by intro f _ regs; simp only [sample_env]; split <;> rfl)
    (by decide)

theorem gpf_guard_of_not_reclassified (opc : Nat) (h : ¬ gpf_reclassified opc) :
    opc ≠ 0xf0 ∧ opc ≠ 0x55 ∧ opc ≠ 0xc3 := by
  unfold gpf_reclassified at h
  simp only [not_or] at h
  exact h

theorem gpf_guard_of_reclassified (opc : Nat) (h : gpf_reclassified opc) :
    ¬ (opc ≠ 0xf0 ∧ opc ≠ 0x55 ∧ opc ≠ 0xc3) := by
  unfold gpf_reclassified at h
  omega

theorem die_notifier_gpf_other (E : trap_env) (R : invop_hdlrs) (s : trap_state)
    (hopc : ¬ gpf_reclassified (E.text s.regs.ip)) :
    dtrace_die_notifier E R die_val.DIE_GPF s = nofault_path E s := by
  have hg := gpf_guard_of_not_reclassified _ hopc
  unfold dtrace_die_notifier
  exact if_pos hg

theorem die_notifier_gpf_reclassified (E : trap_env) (R : invop_hdlrs) (s : trap_state)
    (hopc : gpf_reclassified (E.text s.regs.ip)) :
    dtrace_die_notifier E R die_val.DIE_GPF s
      = case_DIE_TRAP E R s.trapnr { s with trapnr := 6 } := by
  have hg := gpf_guard_of_reclassified _ hopc
  unfold dtrace_die_notifier
  exact if_neg hg

theorem nofault_path_calls (E : trap_env) (s : trap_state) :
    (nofault_path E s).state.calls = s.calls := by
  unfold nofault_path dtrace_handle_badaddr dtrace_skip_instruction DTRACE_CPUFLAG_SET
  by_cases hf : DTRACE_CPUFLAG_ISSET s E.K.CPU_DTRACE_NOFAULT = true
  · by_cases hd : dtrace_instr_size E s.regs.ip ≤ 0
    · simp [hf, hd, outcome.state]
    · simp [hf, hd, outcome.state]
  · simp [hf, outcome.state]

/-- C3, the claim as written, fails: a general-protection fault on a NOP byte
(`0x90`, outside the reclassification set) with `CPU_DTRACE_NOFAULT` set is
not declined. The bad-address handler runs, the instruction pointer moves
from `0x4000` to `0x4001` and the event is consumed with
`NOTIFY_OK | NOTIFY_STOP_MASK`. -/
theorem C3_counterexample :
    ¬ gpf_reclassified (sample_env.text (sample_state 0x4000 13 1).regs.ip) ∧
    dtrace_die_notifier sample_env [7, 9] die_val.DIE_GPF (sample_state 0x4000 13 1)
      = outcome.returned 0x8001
          { regs := ⟨0x4001, 0x7ffd0000, 0x7ffd0040, 0, 0x10, 0x246⟩, trapnr := 13,
            cpuc_dtrace_flags := 5, cpuc_dtrace_illval := 0xdead000, calls := [] } ∧
    ¬ (∃ s1 : trap_state,
        dtrace_die_notifier sample_env [7, 9] die_val.DIE_GPF (sample_state 0x4000 13 1)
          = outcome.returned (sample_env.K.NOTIFY_DONE : Int) s1 ∧
        s1.regs = (sample_state 0x4000 13 1).regs) := by
  refine ⟨by decide, by decide, ?_⟩
  rintro ⟨s1, h1, -⟩
  have h2 : dtrace_die_notifier sample_env [7, 9] die_val.DIE_GPF (sample_state 0x4000 13 1)
      = outcome.returned 0x8001
          { regs := ⟨0x4001, 0x7ffd0000, 0x7ffd0040, 0, 0x10, 0x246⟩, trapnr := 13,
            cpuc_dtrace_flags := 5, cpuc_dtrace_illval := 0xdead000, calls := [] } := by decide
  rw [h2] at h1
  injection h1 with h3 _
  revert h3
  decide

/-- C3 as amended: for a general-protection fault whose opcode byte is
outside `0xf0`, `0x55`, `0xc3`, no registered handler is called whatever the
per-CPU flags are; and when `CPU_DTRACE_NOFAULT` is not set the event is
declined with `NOTIFY_DONE` and the whole state (execution context, trap
number, per-CPU flags) is unchanged. -/
theorem C3_gpf_other_opcode_declined (E : trap_env) (R : invop_hdlrs) (s : trap_state)
    (hopc : ¬ gpf_reclassified (E.text s.regs.ip)) :
    (dtrace_die_notifier E R die_val.DIE_GPF s).state.calls = s.calls ∧
    (DTRACE_CPUFLAG_ISSET s E.K.CPU_DTRACE_NOFAULT = false →
      dtrace_die_notifier E R die_val.DIE_GPF s = outcome.returned (E.K.NOTIFY_DONE : Int) s) := by
  rw [die_notifier_gpf_other E R s hopc]
  refine ⟨nofault_path_calls E s, ?_⟩
  intro hf
  simp [nofault_path, hf]

/-- Witness for the amended C3: a general-protection fault on a NOP byte with
no per-CPU flag set. -/
theorem C3_gpf_other_opcode_declined_witness :
    (dtrace_die_notifier sample_env [7, 9] die_val.DIE_GPF (sample_state 0x4000 13 0)).state.calls
      = (sample_state 0x4000 13 0).calls ∧
    (DTRACE_CPUFLAG_ISSET (sample_state 0x4000 13 0) sample_env.K.CPU_DTRACE_NOFAULT = false →
      dtrace_die_notifier sample_env [7, 9] die_val.DIE_GPF (sample_state 0x4000 13 0)
        = outcome.returned (sample_env.K.NOTIFY_DONE : Int) (sample_state 0x4000 13 0)) :=
  C3_gpf_other_opcode_declined sample_env [7, 9] (sample_state 0x4000 13 0) (by decide)

/-- C4, the claim as written, fails: a page fault with `CPU_DTRACE_NOFAULT`
set at an instruction the decoder cannot complete is not consumed. The
bad-address handler sets the flag and records the address, then stops at
`BUG_ON(delta <= 0)` and nothing is returned. -/
theorem C4_counterexample :
    DTRACE_CPUFLAG_ISSET (sample_state 0x2000 14 1) sample_env.K.CPU_DTRACE_NOFAULT = true ∧
    dtrace_die_notifier sample_env [7, 9] die_val.DIE_PAGE_FAULT (sample_state 0x2000 14 1)
      = outcome.BUG
          { regs := ⟨0x2000, 0x7ffd0000, 0x7ffd0040, 0, 0x10, 0x246⟩, trapnr := 14,
            cpuc_dtrace_flags := 5, cpuc_dtrace_illval := 0xdead000, calls := [] } ∧
    ¬ (∃ s1 : trap_state,
        dtrace_die_notifier sample_env [7, 9] die_val.DIE_PAGE_FAULT (sample_state 0x2000 14 1)
          = outcome.returned
              ((sample_env.K.NOTIFY_OK ||| sample_env.K.NOTIFY_STOP_MASK : Nat) : Int) s1) := by
  refine ⟨by decide, by decide, ?_⟩
  rintro ⟨s1, h1⟩
  have h2 : dtrace_die_notifier sample_env [7, 9] die_val.DIE_PAGE_FAULT (sample_state 0x2000 14 1)
      = outcome.BUG
          { regs := ⟨0x2000, 0x7ffd0000, 0x7ffd0040, 0, 0x10, 0x246⟩, trapnr := 14,
            cpuc_dtrace_flags := 5, cpuc_dtrace_illval := 0xdead000, calls := [] } := by decide
  rw [h2] at h1
  cases h1

/-- C4 as amended: for a page fault, and identically for a general-protection
fault whose opcode byte is outside `0xf0`, `0x55`, `0xc3`: with
`CPU_DTRACE_NOFAULT` clear the event is declined (`NOTIFY_DONE`) and nothing
changes; with it set the bad-address handler runs, and when the instruction at
`ip` decodes to a positive length the result is the state with
`CPU_DTRACE_BADADDR` set, the faulting address recorded, `ip` advanced by that
length and nothing else changed, returned with `NOTIFY_OK | NOTIFY_STOP_MASK`;
when it does not, the run stops at the `BUG_ON` with the flag set and the
address recorded. No registered handler is called in any of the cases. -/
theorem C4_nofault_gate (E : trap_env) (R : invop_hdlrs) (s : trap_state) (val : die_val)
    (hval : val = die_val.DIE_PAGE_FAULT ∨
      (val = die_val.DIE_GPF ∧ ¬ gpf_reclassified (E.text s.regs.ip))) :
    (DTRACE_CPUFLAG_ISSET s E.K.CPU_DTRACE_NOFAULT = false →
      dtrace_die_notifier E R val s = outcome.returned (E.K.NOTIFY_DONE : Int) s) ∧
    (DTRACE_CPUFLAG_ISSET s E.K.CPU_DTRACE_NOFAULT = true →
      0 < dtrace_instr_size E s.regs.ip →
      dtrace_die_notifier E R val s
        = outcome.returned ((E.K.NOTIFY_OK ||| E.K.NOTIFY_STOP_MASK : Nat) : Int)
            { regs := { s.regs with
                ip := (s.regs.ip + (dtrace_instr_size E s.regs.ip).toNat) % 2 ^ 64 },
              trapnr := s.trapnr,
              cpuc_dtrace_flags := s.cpuc_dtrace_flags ||| E.K.CPU_DTRACE_BADADDR,
              cpuc_dtrace_illval := E.read_cr2,
              calls := s.calls }) ∧
    (DTRACE_CPUFLAG_ISSET s E.K.CPU_DTRACE_NOFAULT = true →
      dtrace_instr_size E s.regs.ip ≤ 0 →
      dtrace_die_notifier E R val s
        = outcome.BUG
            { s with
              cpuc_dtrace_flags := s.cpuc_dtrace_flags ||| E.K.CPU_DTRACE_BADADDR,
              cpuc_dtrace_illval := E.read_cr2 }) ∧
    (dtrace_die_notifier E R val s).state.calls = s.calls := by
  have hrun : dtrace_die_notifier E R val s = nofault_path E s := by
    rcases hval with h | ⟨h, hopc⟩
    · subst h; rfl
    · subst h
      exact die_notifier_gpf_other E R s hopc
  rw [hrun]
  refine ⟨?_, ?_, ?_, nofault_path_calls E s⟩
  · intro hf
    simp [nofault_path, hf]
  · intro hf hd
    have hd' : ¬ dtrace_instr_size E s.regs.ip ≤ 0 := not_le.mpr hd
    simp [nofault_path, hf, dtrace_handle_badaddr, dtrace_skip_instruction,
      DTRACE_CPUFLAG_SET, hd', NOTIFY_STOP]
  · intro hf hd
    simp [nofault_path, hf, dtrace_handle_badaddr, dtrace_skip_instruction,
      DTRACE_CPUFLAG_SET, hd]

/-- Witness for the amended C4: a page fault with `CPU_DTRACE_NOFAULT` set at
a one-byte instruction is consumed with the instruction pointer moved from
`0x4000` to `0x4001`, `CPU_DTRACE_BADADDR` set and the address recorded. -/
theorem C4_nofault_gate_witness :
    dtrace_die_notifier sample_env [7, 9] die_val.DIE_PAGE_FAULT (sample_state 0x4000 14 1)
      = outcome.returned
          ((sample_env.K.NOTIFY_OK ||| sample_env.K.NOTIFY_STOP_MASK : Nat) : Int)
          { regs := { (sample_state 0x4000 14 1).regs with
              ip := ((sample_state 0x4000 14 1).regs.ip
                + (dtrace_instr_size sample_env (sample_state 0x4000 14 1).regs.ip).toNat) % 2 ^ 64 },
            trapnr := (sample_state 0x4000 14 1).trapnr,
            cpuc_dtrace_flags :=
              (sample_state 0x4000 14 1).cpuc_dtrace_flags ||| sample_env.K.CPU_DTRACE_BADADDR,
            cpuc_dtrace_illval := sample_env.read_cr2,
            calls := (sample_state 0x4000 14 1).calls } :=
  (C4_nofault_gate sample_env [7, 9] (sample_state 0x4000 14 1) die_val.DIE_PAGE_FAULT
    (Or.inl rfl)).2.1 (by decide) (by decide)

theorem case_DIE_TRAP_unclaimed (E : trap_env) (R : invop_hdlrs) (orig_trapnr : Int)
    (s : trap_state) (htrap : s.trapnr = 6)
    (hun : ¬ invop_claimed E.K (invop_dispatch E.hdlr_code R s.regs).rval) :
    case_DIE_TRAP E R orig_trapnr s
      = outcome.returned (E.K.NOTIFY_DONE : Int)
          { regs := (invop_dispatch E.hdlr_code R s.regs).regs,
            trapnr := if orig_trapnr ≠ 0 then orig_trapnr else s.trapnr,
            cpuc_dtrace_flags := s.cpuc_dtrace_flags,
            cpuc_dtrace_illval := s.cpuc_dtrace_illval,
            calls := s.calls ++ (invop_dispatch E.hdlr_code R s.regs).calls } := by
  unfold invop_claimed at hun
  simp only [not_or] at hun
  obtain ⟨n1, n2, n3, n4, n5⟩ := hun
  by_cases ho : orig_trapnr = 0
  · simp [case_DIE_TRAP, htrap, n1, n2, n3, n4, n5, ho]
  · simp [case_DIE_TRAP, htrap, n1, n2, n3, n4, n5, ho]

/-- C5, the claim as written, fails for the trap number 0: a
general-protection fault on a LOCK prefix byte that arrives with trap number 0
and is claimed by no handler is declined, but returns carrying trap number 6.
The saved `orig_trapnr` doubles as the marker of a reclassified event, and a
saved 0 reads as "not reclassified". -/
theorem C5_counterexample :
    gpf_reclassified (sample_env.text (sample_state 0x1000 0 0).regs.ip) ∧
    ¬ invop_claimed sample_env.K
        (invop_dispatch sample_env.hdlr_code [7, 9] (sample_state 0x1000 0 0).regs).rval ∧
    dtrace_die_notifier sample_env [7, 9] die_val.DIE_GPF (sample_state 0x1000 0 0)
      = outcome.returned (sample_env.K.NOTIFY_DONE : Int)
          { regs := ⟨0x1000, 0x7ffd0000, 0x7ffd0040, 0, 0x10, 0x246⟩, trapnr := 6,
            cpuc_dtrace_flags := 0, cpuc_dtrace_illval := 0, calls := [(7, 0), (9, 0)] } ∧
    (dtrace_die_notifier sample_env [7, 9] die_val.DIE_GPF (sample_state 0x1000 0 0)).state.trapnr
      ≠ (sample_state 0x1000 0 0).trapnr := by
  refine ⟨by decide, by decide, by decide, by decide⟩

/-- C5 as amended: for a general-protection fault whose opcode byte is `0xf0`,
`0x55` or `0xc3` and for every non-zero trap number it arrives with, if no
handler claims the event the notifier declines with `NOTIFY_DONE` and the trap
number on return is the one the event arrived with. The registers on return
are exactly the ones the handler loop left (the notifier adds no
instruction-pointer adjustment of its own), and the per-CPU flags and
illegal-value slot are untouched. -/
theorem C5_gpf_reclassified_unclaimed_restores_trapnr (E : trap_env) (R : invop_hdlrs)
    (s : trap_state)
    (hopc : gpf_reclassified (E.text s.regs.ip))
    (htrap : s.trapnr ≠ 0)
    (hun : ¬ invop_claimed E.K (invop_dispatch E.hdlr_code R s.regs).rval) :
    dtrace_die_notifier E R die_val.DIE_GPF s
      = outcome.returned (E.K.NOTIFY_DONE : Int)
          { regs := (invop_dispatch E.hdlr_code R s.regs).regs,
            trapnr := s.trapnr,
            cpuc_dtrace_flags := s.cpuc_dtrace_flags,
            cpuc_dtrace_illval := s.cpuc_dtrace_illval,
            calls := s.calls ++ (invop_dispatch E.hdlr_code R s.regs).calls } := by
  rw [die_notifier_gpf_reclassified E R s hopc,
    case_DIE_TRAP_unclaimed E R s.trapnr { s with trapnr := 6 } rfl hun]
  simp [htrap]

/-- Witness for the amended C5: a general-protection fault (trap number 13)
on a LOCK prefix byte with two handlers that both return zero. -/
theorem C5_gpf_reclassified_unclaimed_restores_trapnr_witness :
    dtrace_die_notifier sample_env [7, 9] die_val.DIE_GPF (sample_state 0x1000 13 0)
      = outcome.returned (sample_env.K.NOTIFY_DONE : Int)
          { regs := (invop_dispatch sample_env.hdlr_code [7, 9] (sample_state 0x1000 13 0).regs).regs,
            trapnr := (sample_state 0x1000 13 0).trapnr,
            cpuc_dtrace_flags := (sample_state 0x1000 13 0).cpuc_dtrace_flags,
            cpuc_dtrace_illval := (sample_state 0x1000 13 0).cpuc_dtrace_illval,
            calls := (sample_state 0x1000 13 0).calls
              ++ (invop_dispatch sample_env.hdlr_code [7, 9] (sample_state 0x1000 13 0).regs).calls } :=
  C5_gpf_reclassified_unclaimed_restores_trapnr sample_env [7, 9] (sample_state 0x1000 13 0)
    (by decide) (by decide) (by decide)

/-! ## Claims on adding and removing handlers -/

theorem invop_remove_scan_absent (func : invop_fn) (l : invop_hdlrs) :
    ∀ before : invop_hdlrs, func ∉ l → invop_remove_scan func before l = before ++ l := by
  induction l with
  | nil => intro before _; simp [invop_remove_scan]
  | cons h t ih =>
    intro before hn
    have hne : h ≠ func := fun e => hn (e ▸ List.mem_cons_self h t)
    have ht : func ∉ t := fun m => hn (List.mem_cons_of_mem h m)
    simp only [invop_remove_scan, hne, if_false]
    rw [ih (before ++ [h]) ht]
    simp

theorem invop_remove_scan_present (func : invop_fn) (l : invop_hdlrs) :
    ∀ before : invop_hdlrs, func ∈ l →
      ∃ pre post : invop_hdlrs, l = pre ++ func :: post ∧ func ∉ pre ∧
        invop_remove_scan func before l = before ++ (pre ++ post) := by
  induction l with
  | nil => intro before hm; simp at hm
  | cons h t ih =>
    intro before hm
    by_cases he : h = func
    · subst he
      exact ⟨[], t, by simp, by simp, by simp [invop_remove_scan]⟩
    · have ht : func ∈ t := by
        rcases List.mem_cons.1 hm with e | m
        · exact absurd e.symm he
        · exact m
      obtain ⟨pre, post, h1, h2, h3⟩ := ih (before ++ [h]) ht
      refine ⟨h :: pre, post, by simp [h1], ?_, ?_⟩
      · intro hmem
        rcases List.mem_cons.1 hmem with e | m
        · exact he e.symm
        · exact h2 m
      · simp only [invop_remove_scan, he, if_false]
        rw [h3]
        simp

/-- C8: after a successful `dtrace_invop_add f` (return value 0),
`dtrace_invop_remove f` gives back exactly the registry `R` from before the
add, whether or not `R` already held `f`; so dispatch on the result is the
dispatch on `R` for every handler behaviour and every context. -/
theorem C8_add_then_remove_restores (K : kconsts) (f : invop_fn) (R : invop_hdlrs) :
    (dtrace_invop_add K true f R).1 = 0 ∧
    dtrace_invop_remove f (dtrace_invop_add K true f R).2 = R ∧
    ∀ (code : invop_fn → pt_regs → Nat × pt_regs) (regs : pt_regs),
      invop_dispatch code (dtrace_invop_remove f (dtrace_invop_add K true f R).2) regs
        = invop_dispatch code R regs := by
  have h : dtrace_invop_remove f (dtrace_invop_add K true f R).2 = R := by
    simp [dtrace_invop_add, dtrace_invop_remove, invop_remove_scan]
  refine ⟨by simp [dtrace_invop_add], h, ?_⟩
  intro code regs
  rw [h]

/-- C9: `dtrace_invop_remove f` unlinks exactly the first node whose function
is `f`: when `f` is in the registry, the registry splits as
`pre ++ f :: post` with `f` not in `pre` and the result is `pre ++ post` (all
other nodes, in their order); when `f` is not in the registry the result is
the registry itself. The length drops by one in the first case and by zero in
the second. -/
theorem C9_remove_first_match (f : invop_fn) (R : invop_hdlrs) :
    (f ∈ R → ∃ pre post : invop_hdlrs, R = pre ++ f :: post ∧ f ∉ pre ∧
      dtrace_invop_remove f R = pre ++ post) ∧
    (f ∉ R → dtrace_invop_remove f R = R) ∧
    (dtrace_invop_remove f R).length = R.length - (if f ∈ R then 1 else 0) := by
  refine ⟨?_, ?_, ?_⟩
  · intro hm
    obtain ⟨pre, post, h1, h2, h3⟩ := invop_remove_scan_present f R [] hm
    exact ⟨pre, post, h1, h2, by simpa [dtrace_invop_remove] using h3⟩
  · intro hn
    simpa [dtrace_invop_remove] using invop_remove_scan_absent f R [] hn
  · by_cases hm : f ∈ R
    · obtain ⟨pre, post, h1, _, h3⟩ := invop_remove_scan_present f R [] hm
      have h4 : dtrace_invop_remove f R = pre ++ post := by
        simpa [dtrace_invop_remove] using h3
      rw [h4, if_pos hm, h1]
      simp
    · have h4 : dtrace_invop_remove f R = R := by
        simpa [dtrace_invop_remove] using invop_remove_scan_absent f R [] hm
      rw [h4, if_neg hm]
      simp

/-- C10: `dtrace_invop_add` fails exactly when the node allocation fails. On
allocation failure it returns `-ENOMEM` and the registry is the one before the
call; on success it returns 0 and the registry is the old one with the new
callback in front. With a positive `ENOMEM` the return value is non-zero
exactly on allocation failure. -/
theorem C10_add_fails_iff_alloc_fails (K : kconsts) (alloc_ok : Bool) (f : invop_fn)
    (R : invop_hdlrs) (hE : 0 < K.ENOMEM) :
    (alloc_ok = false → dtrace_invop_add K alloc_ok f R = (-(K.ENOMEM : Int), R)) ∧
    (alloc_ok = true → dtrace_invop_add K alloc_ok f R = (0, f :: R)) ∧
    ((dtrace_invop_add K alloc_ok f R).1 ≠ 0 ↔ alloc_ok = false) := by
  cases alloc_ok with
  | false =>
    refine ⟨fun _ => (by simp [dtrace_invop_add]), fun h => (by cases h), ?_⟩
    simp only [dtrace_invop_add, Bool.not_false, if_true, ne_eq, neg_eq_zero, iff_true]
    omega
  | true =>
    refine ⟨fun h => (by cases h), fun _ => (by simp [dtrace_invop_add]), ?_⟩
    simp [dtrace_invop_add]

/-- Witness for C10: a failed allocation on a registry of two handlers. -/
theorem C10_add_fails_iff_alloc_fails_witness :
    (false = false → dtrace_invop_add sample_consts false 3 [7, 9]
        = (-(sample_consts.ENOMEM : Int), [7, 9])) ∧
    (false = true → dtrace_invop_add sample_consts false 3 [7, 9] = (0, 3 :: [7, 9])) ∧
    ((dtrace_invop_add sample_consts false 3 [7, 9]).1 ≠ 0 ↔ false = false) :=
  C10_add_fails_iff_alloc_fails sample_consts false 3 [7, 9] (by decide)

/-! ## Claims on the user stack walker -/

theorem stack_cursors_of_lt (sp bos : Nat) (h : bos < sp) : stack_cursors sp bos = [] := by
  have h0 : (bos + 8 - sp) / 8 = 0 := by omega
  simp [stack_cursors, h0]

theorem stack_cursors_of_le (sp bos : Nat) (h : sp ≤ bos) :
    stack_cursors sp bos = sp :: stack_cursors (sp + 8) bos := by
  have h0 : (bos + 8 - sp) / 8 = (bos + 8 - (sp + 8)) / 8 + 1 := by omega
  unfold stack_cursors
  rw [h0, List.range_succ_eq_map]
  simp only [List.map_cons, List.map_map, Nat.mul_zero, Nat.add_zero, List.cons.injEq, true_and]
  apply List.map_congr_left
  intro i _
  simp only [Function.comp_apply]
  omega

theorem accepted_words_of_lt (T : task_env) (sp bos : Nat) (h : bos < sp) :
    accepted_words T sp bos = [] := by
  simp [accepted_words, stack_cursors_of_lt sp bos h]

theorem accepted_words_of_le (T : task_env) (sp bos pc : Nat) (h : sp ≤ bos)
    (hpc : T.copy_from_user sp = some pc) :
    accepted_words T sp bos =
      if dtrace_user_addr_is_exec T.M pc ≠ 0 then pc :: accepted_words T (sp + 8) bos
      else accepted_words T (sp + 8) bos := by
  unfold accepted_words
  rw [stack_cursors_of_le sp bos h, List.filterMap_cons, hpc]
  by_cases hx : dtrace_user_addr_is_exec T.M pc = 0
  · simp [hx]
  · simp [hx]

theorem zero_fill_eq (l : Nat) : ∀ ws : List Nat, zero_fill l ws = ws ++ List.replicate l 0 := by
  induction l with
  | zero => intro ws; simp [zero_fill]
  | succ l ih =>
    intro ws
    rw [zero_fill, ih, List.replicate_succ]
    simp

theorem int_dec_pos (limit : Nat) (h0 : limit ≠ 0) (h : limit < 2 ^ 32) :
    int_dec limit = limit - 1 := by
  unfold int_dec
  have e : (2 : Nat) ^ 32 = 4294967296 := by norm_num
  rw [e] at h ⊢
  omega

theorem int_inc_small (depth : Nat) (h : depth + 1 < 2 ^ 32) : int_inc depth = depth + 1 := by
  unfold int_inc
  exact Nat.mod_eq_of_lt h

theorem ptr_inc_small (sp : Nat) (h : sp + 8 < 2 ^ 64) : ptr_inc sp = sp + 8 := by
  unfold ptr_inc
  exact Nat.mod_eq_of_lt h

theorem ustack_walk_zero (T : task_env) (bos : Nat) (w : walk_state) :
    ustack_walk T bos 0 w = if w.sp ≤ bos ∧ w.limit ≠ 0 then none else some w := by
  rw [ustack_walk]

theorem ustack_walk_succ (T : task_env) (bos fuel : Nat) (w : walk_state) :
    ustack_walk T bos (fuel + 1) w =
      if w.sp ≤ bos ∧ w.limit ≠ 0 then
        match T.copy_from_user w.sp with
        | none => some { w with reads := w.reads ++ [w.sp] }
        | some pc =>
          if dtrace_user_addr_is_exec T.M pc ≠ 0 then
            ustack_walk T bos fuel
              { sp := ptr_inc w.sp, limit := int_dec w.limit, depth := int_inc w.depth,
                pcs := pcs_store w.pcs pc, reads := w.reads ++ [w.sp] }
          else
            ustack_walk T bos fuel { w with sp := ptr_inc w.sp, reads := w.reads ++ [w.sp] }
      else some w := by
  rw [ustack_walk]

theorem ustack_walk_exit (T : task_env) (bos fuel : Nat) (w : walk_state)
    (h : ¬ (w.sp ≤ bos ∧ w.limit ≠ 0)) : ustack_walk T bos fuel w = some w := by
  cases fuel with
  | zero => rw [ustack_walk_zero, if_neg h]
  | succ f => rw [ustack_walk_succ, if_neg h]

theorem ustack_walk_mono (T : task_env) (bos : Nat) :
    ∀ (fuel : Nat) (w r : walk_state), ustack_walk T bos fuel w = some r →
      ∀ fuel1 : Nat, fuel ≤ fuel1 → ustack_walk T bos fuel1 w = some r := by
  intro fuel
  induction fuel with
  | zero =>
    intro w r h fuel1 _
    rw [ustack_walk_zero] at h
    by_cases hc : w.sp ≤ bos ∧ w.limit ≠ 0
    · rw [if_pos hc] at h
      cases h
    · rw [if_neg hc] at h
      rw [ustack_walk_exit T bos fuel1 w hc]
      exact h
  | succ f ih =>
    intro w r h fuel1 hle
    obtain ⟨g, rfl⟩ : ∃ g, fuel1 = g + 1 := ⟨fuel1 - 1, by omega⟩
    have hfg : f ≤ g := by omega
    rw [ustack_walk_succ] at h ⊢
    by_cases hc : w.sp ≤ bos ∧ w.limit ≠ 0
    · rw [if_pos hc] at h ⊢
      cases hpc : T.copy_from_user w.sp with
      | none =>
        simp only [hpc] at h ⊢
        exact h
      | some pc =>
        simp only [hpc] at h ⊢
        by_cases hx : dtrace_user_addr_is_exec T.M pc ≠ 0
        · rw [if_pos hx] at h ⊢
          exact ih _ r h g hfg
        · rw [if_neg hx] at h ⊢
          exact ih _ r h g hfg
    · rw [if_neg hc] at h ⊢
      exact h

theorem user_stacktrace_mono (T : task_env) (st : stacktrace_state) (fuel fuel1 : Nat)
    (r : stacktrace_state × List Nat) (h : dtrace_user_stacktrace T fuel st = some r)
    (hle : fuel ≤ fuel1) : dtrace_user_stacktrace T fuel1 st = some r := by
  unfold dtrace_user_stacktrace at h ⊢
  by_cases hm : T.user_mode T.regs = true
  · simp only [hm, Bool.not_true, Bool.false_eq_true, if_false] at h ⊢
    cases ht : T.dt_task with
    | none => simp only [ht] at h ⊢; exact h
    | some bos =>
      simp only [ht] at h ⊢
      by_cases hl : int_dec st.limit = 0
      · simp only [hl, if_true] at h ⊢
        exact h
      · simp only [hl, if_false] at h ⊢
        cases hw : ustack_walk T bos fuel
            ⟨T.regs.sp, int_dec st.limit, 1, pcs_store st.pcs T.regs.ip, []⟩ with
        | none => simp only [hw] at h; cases h
        | some w =>
          rw [ustack_walk_mono T bos fuel _ w hw fuel1 hle]
          simp only [hw] at h
          exact h
  · have hm' : T.user_mode T.regs = false := by simpa using hm
    simp only [hm', Bool.not_false, if_true] at h ⊢
    exact h

theorem ustack_walk_all_readable (T : task_env) (bos : Nat) (hbos : bos + 8 < 2 ^ 64) :
    ∀ (n fuel : Nat) (w : walk_state), (bos + 8 - w.sp) / 8 = n → n ≤ fuel →
      (∀ a ∈ stack_cursors w.sp bos, (T.copy_from_user a).isSome = true) →
      (accepted_words T w.sp bos).length ≤ w.limit →
      w.limit < 2 ^ 32 →
      w.depth + (accepted_words T w.sp bos).length < 2 ^ 32 →
      ∃ r : walk_state, ustack_walk T bos fuel w = some r ∧
        r.limit = w.limit - (accepted_words T w.sp bos).length ∧
        r.depth = w.depth + (accepted_words T w.sp bos).length ∧
        r.pcs = w.pcs.map (fun ws => ws ++ accepted_words T w.sp bos) := by
  have e64 : (2 : Nat) ^ 64 = 18446744073709551616 := by norm_num
  intro n
  induction n with
  | zero =>
    intro fuel w hn _ _ _ _ _
    have hlt : bos < w.sp := by omega
    have hc : ¬ (w.sp ≤ bos ∧ w.limit ≠ 0) := fun h => by omega
    refine ⟨w, ustack_walk_exit T bos fuel w hc, ?_⟩
    rw [accepted_words_of_lt T w.sp bos hlt]
    refine ⟨by simp, by simp, ?_⟩
    cases w.pcs <;> simp
  | succ n ih =>
    intro fuel w hn hfuel hread hacc hlim hdep
    have hle : w.sp ≤ bos := by omega
    by_cases hl0 : w.limit = 0
    · have hc : ¬ (w.sp ≤ bos ∧ w.limit ≠ 0) := fun h => h.2 hl0
      have hnil : accepted_words T w.sp bos = [] := by
        rw [hl0] at hacc
        exact List.length_eq_zero.1 (Nat.le_zero.1 hacc)
      refine ⟨w, ustack_walk_exit T bos fuel w hc, ?_⟩
      rw [hnil]
      refine ⟨by simp, by simp, ?_⟩
      cases w.pcs <;> simp
    · obtain ⟨f, rfl⟩ : ∃ f, fuel = f + 1 := ⟨fuel - 1, by omega⟩
      have hc : w.sp ≤ bos ∧ w.limit ≠ 0 := ⟨hle, hl0⟩
      have hcur := stack_cursors_of_le w.sp bos hle
      have hsome : (T.copy_from_user w.sp).isSome = true :=
        hread _ (by rw [hcur]; exact List.mem_cons_self _ _)
      obtain ⟨pc, hpc⟩ := Option.isSome_iff_exists.1 hsome
      have hstep := accepted_words_of_le T w.sp bos pc hle hpc
      have hread' : ∀ a ∈ stack_cursors (w.sp + 8) bos, (T.copy_from_user a).isSome = true := by
        intro a ha
        exact hread a (by rw [hcur]; exact List.mem_cons_of_mem _ ha)
      have hptr : ptr_inc w.sp = w.sp + 8 := ptr_inc_small w.sp (by omega)
      rw [ustack_walk_succ, if_pos hc]
      simp only [hpc]
      by_cases hx : dtrace_user_addr_is_exec T.M pc ≠ 0
      · rw [if_pos hx] at hstep ⊢
        rw [hstep] at hacc hdep ⊢
        simp only [List.length_cons] at hacc hdep ⊢
        have hdec := int_dec_pos w.limit hl0 hlim
        have hinc := int_inc_small w.depth (by omega)
        rw [hptr, hdec, hinc]
        obtain ⟨r, hr, h1, h2, h3⟩ := ih f
          { sp := w.sp + 8, limit := w.limit - 1, depth := w.depth + 1,
            pcs := pcs_store w.pcs pc, reads := w.reads ++ [w.sp] }
          (by simp only; omega) (by omega) hread' (by simp only; omega) (by simp only; omega)
          (by simp only; omega)
        simp only at h1 h2 h3
        refine ⟨r, hr, ?_, ?_, ?_⟩
        · rw [h1]; omega
        · rw [h2]; omega
        · rw [h3]
          cases w.pcs <;> simp [pcs_store]
      · rw [if_neg hx] at hstep ⊢
        rw [hstep] at hacc hdep ⊢
        rw [hptr]
        obtain ⟨r, hr, h1, h2, h3⟩ := ih f
          { w with sp := w.sp + 8, reads := w.reads ++ [w.sp] }
          (by simp only; omega) (by omega) hread' hacc hlim hdep
        exact ⟨r, hr, h1, h2, h3⟩

/-- C6, the claim as written, fails when the cursor wraps round the address
space: with the stack pointer at the last word (`0xfffffffffffffff8`) and
`dt_ustack` at the last byte, one word lies between the two, it can be read
and it passes the check (`K = 1`), yet with limit 4 the walk goes on at the
addresses 0 and 8 (`sp++` wraps and `0 <= dt_ustack` holds), accepts two more
words and ends with depth 4 and a buffer without zeros, where the claim gives
depth 2. The result is the same for every bound of three or more on the
number of loop rounds. -/
theorem C6_counterexample :
    sample_task_top.user_mode sample_task_top.regs = true ∧
    sample_task_top.dt_task = some 0xffffffffffffffff ∧
    stack_cursors sample_task_top.regs.sp 0xffffffffffffffff = [0xfffffffffffffff8] ∧
    (∀ a ∈ stack_cursors sample_task_top.regs.sp 0xffffffffffffffff,
      (sample_task_top.copy_from_user a).isSome = true) ∧
    (accepted_words sample_task_top sample_task_top.regs.sp 0xffffffffffffffff).length = 1 ∧
    (∀ fuel : Nat, 3 ≤ fuel →
      dtrace_user_stacktrace sample_task_top fuel ⟨some [], 4, 0⟩
        = some (⟨some [0x400123, 0x400456, 0x400456, 0x400456], 4, 4⟩,
            [0xfffffffffffffff8, 0, 8])) ∧
    ¬ (∃ (fuel : Nat) (r : stacktrace_state × List Nat),
        dtrace_user_stacktrace sample_task_top fuel ⟨some [], 4, 0⟩ = some r ∧
        r.1.depth = 1 + 1) := by
  have h3 : dtrace_user_stacktrace sample_task_top 3 ⟨some [], 4, 0⟩
      = some (⟨some [0x400123, 0x400456, 0x400456, 0x400456], 4, 4⟩,
          [0xfffffffffffffff8, 0, 8]) := by decide
  refine ⟨by decide, rfl, by decide, by decide, by decide, ?_, ?_⟩
  · intro fuel hf
    exact user_stacktrace_mono sample_task_top _ 3 fuel _ h3 hf
  · rintro ⟨fuel, r, hr, hd⟩
    have h1 := user_stacktrace_mono sample_task_top _ fuel (fuel + 3) r hr (by omega)
    have h2 := user_stacktrace_mono sample_task_top _ 3 (fuel + 3) _ h3 (by omega)
    rw [h1] at h2
    injection h2 with h2
    rw [h2] at hd
    revert hd
    decide

/-- C6 as amended: in user mode with the per-thread tracing state present and
`dt_ustack` more than 8 bytes below the top of the address space (so that the
cursor cannot wrap), for a limit `N >= 1` (a non-negative `int`), if every
word from the stack pointer up to and including `dt_ustack` can be read and
exactly `K < N` of them pass the executable-user-page check, then the walk
ends (within one loop round per word), `st->depth` ends as `K + 1`, and a
supplied buffer receives the current instruction pointer, then the `K`
accepted words in ascending stack order, then `N - (K + 1)` zeros: `N` slots
in all. -/
theorem C6_user_stacktrace_depth_and_buffer (T : task_env) (st : stacktrace_state)
    (bos N K fuel : Nat)
    (hN : 1 ≤ N) (hN31 : N < 2 ^ 31) (hK : K < N)
    (hmode : T.user_mode T.regs = true) (htask : T.dt_task = some bos)
    (hbos : bos + 8 < 2 ^ 64)
    (hfuel : (bos + 8 - T.regs.sp) / 8 ≤ fuel)
    (hread : ∀ a ∈ stack_cursors T.regs.sp bos, (T.copy_from_user a).isSome = true)
    (hacc : (accepted_words T T.regs.sp bos).length = K)
    (hlim : st.limit = N) :
    ∃ r : stacktrace_state × List Nat,
      dtrace_user_stacktrace T fuel st = some r ∧
      r.1.depth = K + 1 ∧
      r.1.pcs
        = st.pcs.map (fun ws => ws ++ T.regs.ip ::
            (accepted_words T T.regs.sp bos ++ List.replicate (N - (K + 1)) 0)) ∧
      (st.pcs = some [] →
        r.1.pcs
          = some (T.regs.ip ::
              (accepted_words T T.regs.sp bos ++ List.replicate (N - (K + 1)) 0)) ∧
        (T.regs.ip :: (accepted_words T T.regs.sp bos
          ++ List.replicate (N - (K + 1)) 0)).length = N) := by
  have e31 : (2 : Nat) ^ 31 = 2147483648 := by norm_num
  have e32 : (2 : Nat) ^ 32 = 4294967296 := by norm_num
  have hN32 : N < 2 ^ 32 := by omega
  have hdec : int_dec st.limit = N - 1 := by
    rw [hlim]; exact int_dec_pos N (by omega) hN32
  have main : ∃ r : stacktrace_state × List Nat,
      dtrace_user_stacktrace T fuel st = some r ∧
      r.1.depth = K + 1 ∧
      r.1.pcs
        = st.pcs.map (fun ws => ws ++ T.regs.ip ::
            (accepted_words T T.regs.sp bos ++ List.replicate (N - (K + 1)) 0)) := by
    by_cases h1 : N - 1 = 0
    · have hN1 : N = 1 := by omega
      have hK0 : K = 0 := by omega
      subst hN1
      subst hK0
      have hnil : accepted_words T T.regs.sp bos = [] := List.length_eq_zero.1 hacc
      have hrun : dtrace_user_stacktrace T fuel st
          = some (⟨stacktrace_out 0 (pcs_store st.pcs T.regs.ip), st.limit, 1⟩, []) := by
        simp only [dtrace_user_stacktrace, hmode, htask, hdec, Bool.not_true, if_true,
          Bool.false_eq_true, if_false]
      refine ⟨_, hrun, rfl, ?_⟩
      rw [hnil]
      cases st.pcs <;> simp [stacktrace_out, pcs_store, zero_fill]
    · obtain ⟨w, hw, w1, w2, w3⟩ := ustack_walk_all_readable T bos hbos
        ((bos + 8 - T.regs.sp) / 8) fuel
        ⟨T.regs.sp, N - 1, 1, pcs_store st.pcs T.regs.ip, []⟩ rfl hfuel hread
        (by simp only; omega) (by simp only; omega) (by simp only; omega)
      simp only at w1 w2 w3
      have hrun : dtrace_user_stacktrace T fuel st
          = some (⟨stacktrace_out w.limit w.pcs, st.limit, w.depth⟩, w.reads) := by
        simp only [dtrace_user_stacktrace, hmode, htask, hdec, h1, Bool.not_true, if_false,
          Bool.false_eq_true, hw]
      refine ⟨_, hrun, ?_, ?_⟩
      · simp only [w2]
        omega
      · simp only [w1, w3]
        have hlen : N - 1 - (accepted_words T T.regs.sp bos).length = N - (K + 1) := by omega
        rw [hlen]
        cases st.pcs <;> simp [stacktrace_out, pcs_store, zero_fill_eq]
  obtain ⟨r, hr, hd, hp⟩ := main
  refine ⟨r, hr, hd, hp, ?_⟩
  intro hs
  refine ⟨?_, ?_⟩
  · rw [hp, hs]; simp
  · simp only [List.length_cons, List.length_append, List.length_replicate]
    omega

/-- Witness for the amended C6: the sample task with limit 4; two of its three
stack words are return addresses, so the depth is 3 and the buffer holds the
instruction pointer, the two return addresses and one zero. -/
theorem C6_user_stacktrace_depth_and_buffer_witness :
    ∃ r : stacktrace_state × List Nat,
      dtrace_user_stacktrace sample_task 3 ⟨some [], 4, 0⟩ = some r ∧
      r.1.depth = 2 + 1 ∧
      r.1.pcs = some [0x400123, 0x400456, 0x400789, 0] := by
  have hacc : accepted_words sample_task sample_task.regs.sp 0x7ffd0010
      = [0x400456, 0x400789] := by decide
  obtain ⟨r, hr, hd, _, hp⟩ :=
    C6_user_stacktrace_depth_and_buffer sample_task ⟨some [], 4, 0⟩ 0x7ffd0010 4 2 3
      (by decide) (by norm_num) (by decide) (by decide) rfl (by norm_num) (by decide)
      (by decide) (by rw [hacc]; rfl) rfl
  refine ⟨r, hr, hd, ?_⟩
  rw [(hp rfl).1, hacc]
  rfl

theorem int_dec_zero : int_dec 0 = 4294967295 := by
  unfold int_dec
  norm_num

theorem user_stacktrace_sample_empty_limit_zero (fuel : Nat) :
    dtrace_user_stacktrace sample_task_empty_stack fuel ⟨some [], 0, 0⟩
      = some (⟨some (0x400123 :: List.replicate 4294967295 0), 0, 1⟩, []) := by
  have ht : sample_task_empty_stack.dt_task = some 0x7ffd0010 := rfl
  have hr : sample_task_empty_stack.regs
      = ⟨0x400123, 0x7ffd0018, 0x7ffd0040, 0, 0x33, 0x246⟩ := rfl
  have hm : sample_task_empty_stack.user_mode
      ⟨0x400123, 0x7ffd0018, 0x7ffd0040, 0, 0x33, 0x246⟩ = true := by decide
  have hw : ustack_walk sample_task_empty_stack 0x7ffd0010 fuel
      ⟨0x7ffd0018, 4294967295, 1, some [0x400123], []⟩
      = some ⟨0x7ffd0018, 4294967295, 1, some [0x400123], []⟩ :=
    ustack_walk_exit _ _ _ _ (by simp)
  simp only [dtrace_user_stacktrace, ht, hr, hm, int_dec_zero, Bool.not_true,
    Bool.false_eq_true, if_false, pcs_store, Option.map_some', List.nil_append,
    OfNat.ofNat_ne_zero, hw, stacktrace_out, zero_fill_eq,
    List.singleton_append]

theorem length_cons_replicate (a n : Nat) :
    (a :: List.replicate n 0).length = n + 1 := by
  rw [List.length_cons, List.length_replicate]

/-- C7 at the limit 0: in user mode with the tracing state present, a request
with a buffer and `limit = 0` stores the instruction pointer in slot 0, the
decrement takes `limit` to `-1`, the walk reads nothing (the stack pointer is
above `dt_ustack`, so the loop body never runs whatever the bound), and the
zero fill `while (limit--)` runs from `-1` round to 0, so `2 ^ 32` slots are
written where the claim allows none. -/
theorem C7_limit_zero_writes_past_buffer :
    sample_task_empty_stack.user_mode sample_task_empty_stack.regs = true ∧
    sample_task_empty_stack.dt_task = some 0x7ffd0010 ∧
    (∀ fuel : Nat,
      dtrace_user_stacktrace sample_task_empty_stack fuel ⟨some [], 0, 0⟩
        = some (⟨some (0x400123 :: List.replicate 4294967295 0), 0, 1⟩, [])) ∧
    (∀ fuel : Nat,
      (dtrace_user_stacktrace sample_task_empty_stack fuel ⟨some [], 0, 0⟩).map
          (fun r => r.1.pcs.map List.length)
        = some (some (4294967295 + 1))) :=
  ⟨by decide, rfl,
    fun fuel => user_stacktrace_sample_empty_limit_zero fuel,
    fun fuel =>
      (congrArg
        (Option.map (fun r : stacktrace_state × List Nat => r.1.pcs.map List.length))
        (user_stacktrace_sample_empty_limit_zero fuel)).trans
        (congrArg (fun n : Nat => some (some n)) (length_cons_replicate 0x400123 4294967295))⟩

/-! ## Claims on claimed events -/

theorem case_DIE_TRAP_nops (E : trap_env) (R : invop_hdlrs) (orig_trapnr : Int)
    (s : trap_state) (htrap : s.trapnr = 6)
    (hr : (invop_dispatch E.hdlr_code R s.regs).rval = E.K.DTRACE_INVOP_NOPS) :
    case_DIE_TRAP E R orig_trapnr s
      = outcome.returned ((E.K.NOTIFY_OK ||| E.K.NOTIFY_STOP_MASK : Nat) : Int)
          { regs := { (invop_dispatch E.hdlr_code R s.regs).regs with
              ip := ((invop_dispatch E.hdlr_code R s.regs).regs.ip + E.K.ASM_CALL_SIZE) % 2 ^ 64 },
            trapnr := s.trapnr,
            cpuc_dtrace_flags := s.cpuc_dtrace_flags,
            cpuc_dtrace_illval := s.cpuc_dtrace_illval,
            calls := s.calls ++ (invop_dispatch E.hdlr_code R s.regs).calls } := by
  simp [case_DIE_TRAP, htrap, hr, NOTIFY_STOP]

/-- C11: for an invalid-opcode event (a `DIE_TRAP` with trap number 6, or a
general-protection fault whose opcode byte is `0xf0`, `0x55` or `0xc3`) on
which the handler loop yields `DTRACE_INVOP_NOPS`, the notifier returns
`NOTIFY_OK | NOTIFY_STOP_MASK` and the registers are the ones the handlers
left with `ip` advanced by `ASM_CALL_SIZE` (modulo `2 ^ 64`) and every other
register field as the handlers left it. Per-CPU flags and illegal-value slot
are untouched; the trap number on return is 6. -/
theorem C11_nops_advances_ip_by_call_size (E : trap_env) (R : invop_hdlrs) (s : trap_state)
    (val : die_val)
    (hval : (val = die_val.DIE_TRAP ∧ s.trapnr = 6) ∨
      (val = die_val.DIE_GPF ∧ gpf_reclassified (E.text s.regs.ip)))
    (hr : (invop_dispatch E.hdlr_code R s.regs).rval = E.K.DTRACE_INVOP_NOPS) :
    dtrace_die_notifier E R val s
      = outcome.returned ((E.K.NOTIFY_OK ||| E.K.NOTIFY_STOP_MASK : Nat) : Int)
          { regs :=
              { ip := ((invop_dispatch E.hdlr_code R s.regs).regs.ip + E.K.ASM_CALL_SIZE) % 2 ^ 64,
                sp := (invop_dispatch E.hdlr_code R s.regs).regs.sp,
                bp := (invop_dispatch E.hdlr_code R s.regs).regs.bp,
                ax := (invop_dispatch E.hdlr_code R s.regs).regs.ax,
                cs := (invop_dispatch E.hdlr_code R s.regs).regs.cs,
                flags := (invop_dispatch E.hdlr_code R s.regs).regs.flags },
            trapnr := 6,
            cpuc_dtrace_flags := s.cpuc_dtrace_flags,
            cpuc_dtrace_illval := s.cpuc_dtrace_illval,
            calls := s.calls ++ (invop_dispatch E.hdlr_code R s.regs).calls } := by
  rcases hval with ⟨hv, h6⟩ | ⟨hv, hopc⟩
  · subst hv
    have h := case_DIE_TRAP_nops E R 0 s h6 hr
    simp only [dtrace_die_notifier]
    rw [h, h6]
  · subst hv
    rw [die_notifier_gpf_reclassified E R s hopc,
      case_DIE_TRAP_nops E R s.trapnr { s with trapnr := 6 } rfl hr]

/-- Witness for C11: an invalid-opcode trap at `0x3500` where the handler
returns the NOPS code 5 (sample handler 11), consumed with `ip` advanced by
the sample call size 5. -/
theorem C11_nops_advances_ip_by_call_size_witness :
    dtrace_die_notifier { sample_env with hdlr_code := fun _ regs => (5, regs) } [11]
        die_val.DIE_TRAP (sample_state 0x3500 6 0)
      = outcome.returned 0x8001
          { regs := ⟨0x3505, 0x7ffd0000, 0x7ffd0040, 0, 0x10, 0x246⟩, trapnr := 6,
            cpuc_dtrace_flags := 0, cpuc_dtrace_illval := 0, calls := [(11, 5)] } :=
  C11_nops_advances_ip_by_call_size { sample_env with hdlr_code := fun _ regs => (5, regs) } [11]
    (sample_state 0x3500 6 0) die_val.DIE_TRAP (Or.inl ⟨rfl, rfl⟩) (by decide)

theorem int3_predecrement (ip : Nat) (hip : ip < 2 ^ 64) :
    ((ip + 1) % 2 ^ 64 + 2 ^ 64 - 1) % 2 ^ 64 = ip := by
  have e : (2 : Nat) ^ 64 = 18446744073709551616 := by norm_num
  rw [e] at hip ⊢
  omega

/-- C12: breakpoint handling is invalid-opcode handling after the
pre-decrement. For an address `p` (the `ip` of `s`, below `2 ^ 64`) and a
handler result with a `case` label, the `DIE_INT3` event delivered with
`ip = p + 1` (modulo `2 ^ 64`, any trap number) and the `DIE_TRAP` event with
trap number 6 delivered with `ip = p` return the same value and end with the
same registers, per-CPU flags, illegal-value slot and handler calls. -/
theorem C12_int3_equals_trap_after_predecrement (E : trap_env) (R : invop_hdlrs)
    (s : trap_state) (trapnr3 : Int)
    (hip : s.regs.ip < 2 ^ 64) (h6 : s.trapnr = 6)
    (hcl : invop_claimed E.K (invop_dispatch E.hdlr_code R s.regs).rval) :
    ∃ (rv : Int) (s6 s3 : trap_state),
      dtrace_die_notifier E R die_val.DIE_TRAP s = outcome.returned rv s6 ∧
      dtrace_die_notifier E R die_val.DIE_INT3
          { s with regs := { s.regs with ip := (s.regs.ip + 1) % 2 ^ 64 }, trapnr := trapnr3 }
        = outcome.returned rv s3 ∧
      s3.regs = s6.regs ∧ s3.cpuc_dtrace_flags = s6.cpuc_dtrace_flags ∧
      s3.cpuc_dtrace_illval = s6.cpuc_dtrace_illval ∧ s3.calls = s6.calls := by
  have hdec := int3_predecrement s.regs.ip hip
  have hregs : ({ s.regs with ip := ((s.regs.ip + 1) % 2 ^ 64 + 2 ^ 64 - 1) % 2 ^ 64 } : pt_regs)
      = s.regs := by
    rw [hdec]
  by_cases hn : (invop_dispatch E.hdlr_code R s.regs).rval = E.K.DTRACE_INVOP_NOPS
  · refine ⟨NOTIFY_STOP E.K,
      { regs := { (invop_dispatch E.hdlr_code R s.regs).regs with
          ip := ((invop_dispatch E.hdlr_code R s.regs).regs.ip + E.K.ASM_CALL_SIZE) % 2 ^ 64 },
        trapnr := s.trapnr, cpuc_dtrace_flags := s.cpuc_dtrace_flags,
        cpuc_dtrace_illval := s.cpuc_dtrace_illval,
        calls := s.calls ++ (invop_dispatch E.hdlr_code R s.regs).calls },
      { regs := { (invop_dispatch E.hdlr_code R s.regs).regs with
          ip := ((invop_dispatch E.hdlr_code R s.regs).regs.ip + E.K.ASM_CALL_SIZE) % 2 ^ 64 },
        trapnr := trapnr3, cpuc_dtrace_flags := s.cpuc_dtrace_flags,
        cpuc_dtrace_illval := s.cpuc_dtrace_illval,
        calls := s.calls ++ (invop_dispatch E.hdlr_code R s.regs).calls },
      ?_, ?_, rfl, rfl, rfl, rfl⟩
    · simp only [dtrace_die_notifier, case_DIE_TRAP, h6, ne_eq, not_true_eq_false, if_false, hn,
        if_true]
    · simp only [dtrace_die_notifier, case_DIE_INT3, hregs, hn, if_true]
  · have hor : (invop_dispatch E.hdlr_code R s.regs).rval = E.K.DTRACE_INVOP_MOV_RSP_RBP ∨
        (invop_dispatch E.hdlr_code R s.regs).rval = E.K.DTRACE_INVOP_NOP ∨
        (invop_dispatch E.hdlr_code R s.regs).rval = E.K.DTRACE_INVOP_PUSH_BP ∨
        (invop_dispatch E.hdlr_code R s.regs).rval = E.K.DTRACE_INVOP_RET := by
      unfold invop_claimed at hcl
      rcases hcl with h | h
      · exact absurd h hn
      · exact h
    refine ⟨E.K.notifier_from_errno (-((invop_dispatch E.hdlr_code R s.regs).rval : Int)),
      { regs := (invop_dispatch E.hdlr_code R s.regs).regs,
        trapnr := s.trapnr, cpuc_dtrace_flags := s.cpuc_dtrace_flags,
        cpuc_dtrace_illval := s.cpuc_dtrace_illval,
        calls := s.calls ++ (invop_dispatch E.hdlr_code R s.regs).calls },
      { regs := (invop_dispatch E.hdlr_code R s.regs).regs,
        trapnr := trapnr3, cpuc_dtrace_flags := s.cpuc_dtrace_flags,
        cpuc_dtrace_illval := s.cpuc_dtrace_illval,
        calls := s.calls ++ (invop_dispatch E.hdlr_code R s.regs).calls },
      ?_, ?_, rfl, rfl, rfl, rfl⟩
    · simp only [dtrace_die_notifier, case_DIE_TRAP, h6, ne_eq, not_true_eq_false, if_false, hn,
        hor, if_true]
    · simp only [dtrace_die_notifier, case_DIE_INT3, hregs, hn, if_false, hor, if_true]

/-- Witness for C12: a one-byte NOP probe at `0x3000` claimed by handler 9,
reached as a breakpoint reported with `ip = 0x3001` and as an invalid-opcode
trap reported with `ip = 0x3000`. -/
theorem C12_int3_equals_trap_after_predecrement_witness :
    ∃ (rv : Int) (s6 s3 : trap_state),
      dtrace_die_notifier sample_env [7, 9] die_val.DIE_TRAP (sample_state 0x3000 6 0)
        = outcome.returned rv s6 ∧
      dtrace_die_notifier sample_env [7, 9] die_val.DIE_INT3
          { sample_state 0x3000 6 0 with
            regs := { (sample_state 0x3000 6 0).regs with
              ip := ((sample_state 0x3000 6 0).regs.ip + 1) % 2 ^ 64 },
            trapnr := 3 }
        = outcome.returned rv s3 ∧
      s3.regs = s6.regs ∧ s3.cpuc_dtrace_flags = s6.cpuc_dtrace_flags ∧
      s3.cpuc_dtrace_illval = s6.cpuc_dtrace_illval ∧ s3.calls = s6.calls :=
  C12_int3_equals_trap_after_predecrement sample_env [7, 9] (sample_state 0x3000 6 0) 3
    (by decide) rfl (by decide)

/-! ## Claims on the executable-user-page check -/

/-- C13 at three page-table states where the check answers non-zero for an
entry that is not a present user page. (1) A pmd entry that is neither empty
nor present: line 366 takes it for a leaf and line 371 returns its
`pte_exec`, 1, where the claim wants 0 for a level that is not present.
(2) A present large pmd entry without the user bit, and (3) a present large
pud entry without the user bit: lines 352-358 and 366-372 return `pte_exec`
without the present-and-user test that the leaf path makes at line 380. -/
theorem C13_large_and_nonpresent_entries_skip_checks :
    ((sample_mm_x86 tables_pmd_not_present).pmd_none (tables_pmd_not_present 4) = false ∧
      (sample_mm_x86 tables_pmd_not_present).pmd_present (tables_pmd_not_present 4) = false ∧
      dtrace_user_addr_is_exec (sample_mm_x86 tables_pmd_not_present) 0x400456 = 1) ∧
    ((sample_mm_x86 tables_pmd_large_kernel).pmd_large (tables_pmd_large_kernel 4) = true ∧
      (sample_mm_x86 tables_pmd_large_kernel).pte_flags (tables_pmd_large_kernel 4)
        &&& (sample_mm_x86 tables_pmd_large_kernel)._PAGE_USER = 0 ∧
      dtrace_user_addr_is_exec (sample_mm_x86 tables_pmd_large_kernel) 0xffffffff81000000 = 1) ∧
    ((sample_mm_x86 tables_pud_large_kernel).pud_large (tables_pud_large_kernel 3) = true ∧
      (sample_mm_x86 tables_pud_large_kernel).pte_flags (tables_pud_large_kernel 3)
        &&& (sample_mm_x86 tables_pud_large_kernel)._PAGE_USER = 0 ∧
      dtrace_user_addr_is_exec (sample_mm_x86 tables_pud_large_kernel) 0xffff888000000000 = 1) := by
  refine ⟨⟨by decide, by decide, by decide⟩, ⟨by decide, by decide, by decide⟩,
    ⟨by decide, by decide, by decide⟩⟩

/-! ## Claims on the stack walker's early exits -/

/-- C14: when the registers are not in user mode, or the thread has no
tracing state, `dtrace_user_stacktrace` returns (whatever the bound on the
walk, which is never entered) having read no user memory, with `st->depth` as
it was, no address recorded, and exactly `limit` zeros appended to a supplied
buffer (for a buffer given empty: the buffer is `limit` zeros). -/
theorem C14_not_user_or_no_task_zero_fills (T : task_env) (fuel : Nat) (st : stacktrace_state)
    (h : T.user_mode T.regs = false ∨ T.dt_task = none) :
    dtrace_user_stacktrace T fuel st
      = some (⟨st.pcs.map (fun ws => ws ++ List.replicate st.limit 0), st.limit, st.depth⟩, []) ∧
    (st.pcs = some [] →
      dtrace_user_stacktrace T fuel st
        = some (⟨some (List.replicate st.limit 0), st.limit, st.depth⟩, [])) := by
  have hrun : dtrace_user_stacktrace T fuel st
      = some (⟨stacktrace_out st.limit st.pcs, st.limit, st.depth⟩, []) := by
    rcases h with h | h
    · simp only [dtrace_user_stacktrace, h, Bool.not_false, if_true]
    · by_cases hm : T.user_mode T.regs = true
      · simp only [dtrace_user_stacktrace, hm, h, Bool.not_true, Bool.false_eq_true, if_false]
      · have hm' : T.user_mode T.regs = false := by simpa using hm
        simp only [dtrace_user_stacktrace, hm', Bool.not_false, if_true]
  have hout : stacktrace_out st.limit st.pcs
      = st.pcs.map (fun ws => ws ++ List.replicate st.limit 0) := by
    cases st.pcs <;> simp [stacktrace_out, zero_fill_eq]
  rw [hrun, hout]
  refine ⟨rfl, ?_⟩
  intro hp
  rw [hp]
  simp only [Option.map_some', List.nil_append]

/-- Witness for C14: the sample task seen in kernel mode (`cs = 0x10`) with
limit 3 and an empty buffer: three zeros, no read, depth untouched. -/
theorem C14_not_user_or_no_task_zero_fills_witness :
    dtrace_user_stacktrace
        { sample_task with regs := ⟨0x400123, 0x7ffd0000, 0x7ffd0040, 0, 0x10, 0x246⟩ } 0
        ⟨some [], 3, 7⟩
      = some (⟨some (List.replicate 3 0), 3, 7⟩, []) :=
  (C14_not_user_or_no_task_zero_fills
    { sample_task with regs := ⟨0x400123, 0x7ffd0000, 0x7ffd0040, 0, 0x10, 0x246⟩ } 0
    ⟨some [], 3, 7⟩ (Or.inl (by decide))).2 rfl

/-! ## Claims on a failing stack read -/

theorem first_cursors_zero (sp : Nat) : first_cursors sp 0 = [] := by
  simp [first_cursors]

theorem first_cursors_succ (sp k : Nat) :
    first_cursors sp (k + 1) = sp :: first_cursors (sp + 8) k := by
  unfold first_cursors
  rw [List.range_succ_eq_map]
  simp only [List.map_cons, List.map_map, Nat.mul_zero, Nat.add_zero, List.cons.injEq, true_and]
  apply List.map_congr_left
  intro i _
  simp only [Function.comp_apply]
  omega

theorem first_cursors_le (sp k a : Nat) (h : a ∈ first_cursors sp k) : a + 8 ≤ sp + 8 * k := by
  unfold first_cursors at h
  obtain ⟨i, hi, rfl⟩ := List.mem_map.1 h
  have := List.mem_range.1 hi
  omega

theorem accepted_first_zero (T : task_env) (sp : Nat) : accepted_first T sp 0 = [] := by
  simp [accepted_first, first_cursors_zero]

theorem accepted_first_succ (T : task_env) (sp k pc : Nat)
    (hpc : T.copy_from_user sp = some pc) :
    accepted_first T sp (k + 1) =
      if dtrace_user_addr_is_exec T.M pc ≠ 0 then pc :: accepted_first T (sp + 8) k
      else accepted_first T (sp + 8) k := by
  unfold accepted_first
  rw [first_cursors_succ, List.filterMap_cons, hpc]
  by_cases hx : dtrace_user_addr_is_exec T.M pc = 0
  · simp [hx]
  · simp [hx]

theorem ustack_walk_to_fault (T : task_env) (bos : Nat) (hbos : bos < 2 ^ 64) :
    ∀ (k fuel sp limit depth : Nat) (pcs : Option (List Nat)) (reads : List Nat),
      k + 1 ≤ fuel →
      sp + 8 * k ≤ bos →
      (∀ a ∈ first_cursors sp k, (T.copy_from_user a).isSome = true) →
      T.copy_from_user (sp + 8 * k) = none →
      depth + limit < 2 ^ 32 →
      ∃ r : walk_state, ustack_walk T bos fuel ⟨sp, limit, depth, pcs, reads⟩ = some r ∧
        r.pcs = pcs.map (fun ws => ws ++ (accepted_first T sp k).take limit) ∧
        r.depth = depth + min (accepted_first T sp k).length limit ∧
        r.limit = limit - min (accepted_first T sp k).length limit ∧
        (∃ j, j ≤ k + 1 ∧ r.reads = reads ++ first_cursors sp j) ∧
        ((accepted_first T sp k).length < limit →
          r.reads = reads ++ first_cursors sp (k + 1)) := by
  have e64 : (2 : Nat) ^ 64 = 18446744073709551616 := by norm_num
  intro k
  induction k with
  | zero =>
    intro fuel sp limit depth pcs reads hfuel hsp _ hfail _
    have hsp' : sp ≤ bos := by omega
    have hfail' : T.copy_from_user sp = none := by simpa using hfail
    rw [accepted_first_zero]
    by_cases hl : limit = 0
    · have hc : ¬ ((⟨sp, limit, depth, pcs, reads⟩ : walk_state).sp ≤ bos ∧
          (⟨sp, limit, depth, pcs, reads⟩ : walk_state).limit ≠ 0) := fun h => h.2 hl
      refine ⟨_, ustack_walk_exit T bos fuel _ hc, ?_⟩
      refine ⟨by cases pcs <;> simp, by simp, by simp,
        ⟨0, by omega, by simp [first_cursors_zero]⟩, ?_⟩
      intro h
      simp only [List.length_nil] at h
      omega
    · obtain ⟨f, rfl⟩ : ∃ f, fuel = f + 1 := ⟨fuel - 1, by omega⟩
      have hc : (⟨sp, limit, depth, pcs, reads⟩ : walk_state).sp ≤ bos ∧
          (⟨sp, limit, depth, pcs, reads⟩ : walk_state).limit ≠ 0 := ⟨hsp', hl⟩
      refine ⟨⟨sp, limit, depth, pcs, reads ++ [sp]⟩, ?_, ?_⟩
      · rw [ustack_walk_succ, if_pos hc]
        simp only [hfail']
      · refine ⟨by cases pcs <;> simp, by simp, by simp,
          ⟨1, by omega, by simp [first_cursors_succ, first_cursors_zero]⟩, ?_⟩
        intro _
        simp [first_cursors_succ, first_cursors_zero]
  | succ k ih =>
    intro fuel sp limit depth pcs reads hfuel hsp hread hfail hdep
    have hsp' : sp ≤ bos := by omega
    by_cases hl : limit = 0
    · have hc : ¬ ((⟨sp, limit, depth, pcs, reads⟩ : walk_state).sp ≤ bos ∧
          (⟨sp, limit, depth, pcs, reads⟩ : walk_state).limit ≠ 0) := fun h => h.2 hl
      refine ⟨_, ustack_walk_exit T bos fuel _ hc, ?_⟩
      subst hl
      refine ⟨by cases pcs <;> simp, by simp, by simp,
        ⟨0, by omega, by simp [first_cursors_zero]⟩, ?_⟩
      intro h
      omega
    · obtain ⟨f, rfl⟩ : ∃ f, fuel = f + 1 := ⟨fuel - 1, by omega⟩
      have hc : (⟨sp, limit, depth, pcs, reads⟩ : walk_state).sp ≤ bos ∧
          (⟨sp, limit, depth, pcs, reads⟩ : walk_state).limit ≠ 0 := ⟨hsp', hl⟩
      have hsome : (T.copy_from_user sp).isSome = true :=
        hread sp (by rw [first_cursors_succ]; exact List.mem_cons_self _ _)
      obtain ⟨pc, hpc⟩ := Option.isSome_iff_exists.1 hsome
      have hread' : ∀ a ∈ first_cursors (sp + 8) k, (T.copy_from_user a).isSome = true := by
        intro a ha
        exact hread a (by rw [first_cursors_succ]; exact List.mem_cons_of_mem _ ha)
      have hfail' : T.copy_from_user (sp + 8 + 8 * k) = none := by
        have e : sp + 8 + 8 * k = sp + 8 * (k + 1) := by omega
        rw [e]; exact hfail
      have hstep := accepted_first_succ T sp k pc hpc
      have e32 : (2 : Nat) ^ 32 = 4294967296 := by norm_num
      have hptr : ptr_inc sp = sp + 8 := ptr_inc_small sp (by omega)
      rw [ustack_walk_succ, if_pos hc]
      simp only [hpc]
      by_cases hx : dtrace_user_addr_is_exec T.M pc ≠ 0
      · rw [if_pos hx] at hstep ⊢
        rw [hstep]
        have hdec : int_dec limit = limit - 1 := int_dec_pos limit hl (by omega)
        have hinc : int_inc depth = depth + 1 := int_inc_small depth (by omega)
        rw [hptr, hdec, hinc]
        obtain ⟨r, hr, h1, h2, h3, ⟨j, hj, h4⟩, h5⟩ := ih f (sp + 8) (limit - 1) (depth + 1)
          (pcs_store pcs pc) (reads ++ [sp]) (by omega) (by omega) hread' hfail' (by omega)
        obtain ⟨l, rfl⟩ : ∃ l, limit = l + 1 := ⟨limit - 1, by omega⟩
        simp only [Nat.add_sub_cancel] at hr h1 h2 h3 h4 h5 ⊢
        refine ⟨r, hr, ?_, ?_, ?_, ⟨j + 1, by omega, ?_⟩, ?_⟩
        · rw [h1]
          cases pcs <;> simp [pcs_store, List.take_succ_cons]
        · rw [h2]
          simp only [List.length_cons]
          omega
        · rw [h3]
          simp only [List.length_cons]
          omega
        · rw [h4, first_cursors_succ]
          simp
        · intro hlt
          simp only [List.length_cons] at hlt
          rw [h5 (by omega), first_cursors_succ sp (k + 1)]
          simp
      · rw [if_neg hx] at hstep ⊢
        rw [hstep, hptr]
        obtain ⟨r, hr, h1, h2, h3, ⟨j, hj, h4⟩, h5⟩ := ih f (sp + 8) limit depth pcs
          (reads ++ [sp]) (by omega) (by omega) hread' hfail' hdep
        refine ⟨r, hr, h1, h2, h3, ⟨j + 1, by omega, ?_⟩, ?_⟩
        · rw [h4, first_cursors_succ]
          simp
        · intro hlt
          rw [h5 hlt, first_cursors_succ sp (k + 1)]
          simp

/-- C15: in user mode with tracing state present and a limit `N >= 1`, if the
words at the first `k` cursor positions can be read and the read at position
`k` (an address not above `dt_ustack`) fails, the function still returns
(within `k + 1` loop rounds): the depth is 1 plus the number of words the walk
accepted, the buffer gets the instruction pointer, then the accepted words
among the first `k` (at most `N - 1` of them, in stack order), then zeros up
to `N` slots in all. The addresses touched form an initial run of the cursor
positions that ends at the failing position at the latest, so nothing above
it is read. When the limit does not run out first (fewer than `N - 1`
accepted words below the failing position) the walk does reach the failing
read, the recorded words are exactly the accepted words below it, and the
depth counts exactly them and the instruction pointer. -/
theorem C15_read_fault_truncates_walk (T : task_env) (st : stacktrace_state)
    (bos N k fuel : Nat)
    (hN : 1 ≤ N) (hN31 : N < 2 ^ 31)
    (hmode : T.user_mode T.regs = true) (htask : T.dt_task = some bos)
    (hbos : bos < 2 ^ 64)
    (hfuel : k + 1 ≤ fuel)
    (hlim : st.limit = N)
    (hk : T.regs.sp + 8 * k ≤ bos)
    (hread : ∀ a ∈ first_cursors T.regs.sp k, (T.copy_from_user a).isSome = true)
    (hfail : T.copy_from_user (T.regs.sp + 8 * k) = none) :
    ∃ r : stacktrace_state × List Nat,
      dtrace_user_stacktrace T fuel st = some r ∧
      r.1.depth = 1 + min (accepted_first T T.regs.sp k).length (N - 1) ∧
      r.1.pcs
        = st.pcs.map (fun ws => ws ++ T.regs.ip ::
            ((accepted_first T T.regs.sp k).take (N - 1)
              ++ List.replicate (N - 1 - min (accepted_first T T.regs.sp k).length (N - 1)) 0)) ∧
      (T.regs.ip :: ((accepted_first T T.regs.sp k).take (N - 1)
        ++ List.replicate (N - 1 - min (accepted_first T T.regs.sp k).length (N - 1)) 0)).length
        = N ∧
      (∃ j, j ≤ k + 1 ∧ r.2 = first_cursors T.regs.sp j) ∧
      (∀ a ∈ r.2, a ≤ T.regs.sp + 8 * k) ∧
      ((accepted_first T T.regs.sp k).length < N - 1 →
        r.1.depth = 1 + (accepted_first T T.regs.sp k).length ∧
        r.1.pcs
          = st.pcs.map (fun ws => ws ++ T.regs.ip ::
              (accepted_first T T.regs.sp k
                ++ List.replicate (N - 1 - (accepted_first T T.regs.sp k).length) 0)) ∧
        r.2 = first_cursors T.regs.sp (k + 1)) := by
  have e31 : (2 : Nat) ^ 31 = 2147483648 := by norm_num
  have e32 : (2 : Nat) ^ 32 = 4294967296 := by norm_num
  have hdec : int_dec st.limit = N - 1 := by
    rw [hlim]; exact int_dec_pos N (by omega) (by omega)
  have hreads_le : ∀ j, j ≤ k + 1 → ∀ a ∈ first_cursors T.regs.sp j, a ≤ T.regs.sp + 8 * k := by
    intro j hj a ha
    have := first_cursors_le T.regs.sp j a ha
    omega
  by_cases h1 : N - 1 = 0
  · have hrun : dtrace_user_stacktrace T fuel st
        = some (⟨stacktrace_out 0 (pcs_store st.pcs T.regs.ip), st.limit, 1⟩, []) := by
      simp only [dtrace_user_stacktrace, hmode, htask, hdec, h1, Bool.not_true, if_true,
        Bool.false_eq_true, if_false]
    refine ⟨_, hrun, ?_⟩
    rw [h1]
    refine ⟨by simp, ?_, by simp; omega, ⟨0, by omega, by simp [first_cursors_zero]⟩, by simp, ?_⟩
    · cases st.pcs <;> simp [stacktrace_out, pcs_store, zero_fill]
    · intro h
      omega
  · obtain ⟨w, hw, w1, w2, w3, ⟨j, hj, w4⟩, w5⟩ := ustack_walk_to_fault T bos hbos k fuel
      T.regs.sp (N - 1) 1 (pcs_store st.pcs T.regs.ip) [] hfuel hk hread hfail (by omega)
    have hrun : dtrace_user_stacktrace T fuel st
        = some (⟨stacktrace_out w.limit w.pcs, st.limit, w.depth⟩, w.reads) := by
      simp only [dtrace_user_stacktrace, hmode, htask, hdec, h1, Bool.not_true, if_false,
        Bool.false_eq_true, hw]
    refine ⟨_, hrun, ?_⟩
    simp only
    rw [w1, w2, w3, w4]
    have hpcs : stacktrace_out (N - 1 - min (accepted_first T T.regs.sp k).length (N - 1))
          (Option.map (fun ws => ws ++ List.take (N - 1) (accepted_first T T.regs.sp k))
            (pcs_store st.pcs T.regs.ip))
        = st.pcs.map (fun ws => ws ++ T.regs.ip ::
            ((accepted_first T T.regs.sp k).take (N - 1)
              ++ List.replicate (N - 1 - min (accepted_first T T.regs.sp k).length (N - 1)) 0)) := by
      cases st.pcs <;> simp [stacktrace_out, pcs_store, zero_fill_eq]
    refine ⟨rfl, hpcs, ?_, ⟨j, hj, by simp⟩, ?_, ?_⟩
    · simp only [List.length_cons, List.length_append, List.length_take, List.length_replicate]
      omega
    · intro a ha
      exact hreads_le j hj a (by simpa using ha)
    · intro hlt
      have hmin : min (accepted_first T T.regs.sp k).length (N - 1)
          = (accepted_first T T.regs.sp k).length := by omega
      have htake : (accepted_first T T.regs.sp k).take (N - 1) = accepted_first T T.regs.sp k :=
        List.take_of_length_le (by omega)
      refine ⟨by rw [hmin], ?_, ?_⟩
      · rw [hpcs, hmin, htake]
      · have := w5 hlt
        rw [w4] at this
        simpa using this

/-- Witness for C15: the sample task whose second stack word faults, with
limit 4: depth 2, the buffer holds the instruction pointer, the one return
address below the fault and two zeros, and only the first two stack addresses
are touched (the return address above the fault is never read). -/
theorem C15_read_fault_truncates_walk_witness :
    ∃ r : stacktrace_state × List Nat,
      dtrace_user_stacktrace sample_task_fault 2 ⟨some [], 4, 0⟩ = some r ∧
      r.1.depth = 1 + 1 ∧
      r.1.pcs = some [0x400123, 0x400456, 0, 0] ∧
      r.2 = [0x7ffd0000, 0x7ffd0008] := by
  have hacc : accepted_first sample_task_fault sample_task_fault.regs.sp 1 = [0x400456] := by
    decide
  obtain ⟨r, hr, h⟩ :=
    C15_read_fault_truncates_walk sample_task_fault ⟨some [], 4, 0⟩ 0x7ffd0010 4 1 2
      (by decide) (by norm_num) (by decide) rfl (by norm_num) (by decide) rfl (by decide)
      (by decide) (by decide)
  have h6 := h.2.2.2.2.2 (by rw [hacc]; decide)
  rw [hacc] at h6
  exact ⟨r, hr, h6.1, h6.2.1, h6.2.2⟩

/-! ## Claims on the bad-address handler and the per-CPU flags -/

theorem lor_land_self (a b : Nat) : (a ||| b) &&& b = b := by
  apply Nat.eq_of_testBit_eq
  intro i
  rw [Nat.testBit_and, Nat.testBit_or]
  cases a.testBit i <;> cases b.testBit i <;> rfl

theorem lor_land_disjoint (a b c : Nat) (h : b &&& c = 0) : (a ||| b) &&& c = a &&& c := by
  apply Nat.eq_of_testBit_eq
  intro i
  have hi : (b &&& c).testBit i = false := by rw [h]; exact Nat.zero_testBit i
  rw [Nat.testBit_and] at hi
  rw [Nat.testBit_and, Nat.testBit_or, Nat.testBit_and]
  revert hi
  cases a.testBit i <;> cases b.testBit i <;> cases c.testBit i <;> simp

theorem testBit_lor_of_left (a b i : Nat) (h : a.testBit i = true) :
    (a ||| b).testBit i = true := by
  rw [Nat.testBit_or, h]
  rfl

theorem handle_badaddr_bug (E : trap_env) (s : trap_state)
    (hd : dtrace_instr_size E s.regs.ip ≤ 0) :
    dtrace_handle_badaddr E s
      = outcome.BUG
          { s with
            cpuc_dtrace_flags := s.cpuc_dtrace_flags ||| E.K.CPU_DTRACE_BADADDR,
            cpuc_dtrace_illval := E.read_cr2 } := by
  simp [dtrace_handle_badaddr, dtrace_skip_instruction, DTRACE_CPUFLAG_SET, hd]

theorem handle_badaddr_returns (E : trap_env) (s : trap_state)
    (hd : 0 < dtrace_instr_size E s.regs.ip) :
    dtrace_handle_badaddr E s
      = outcome.returned ()
          { regs := { s.regs with
              ip := (s.regs.ip + (dtrace_instr_size E s.regs.ip).toNat) % 2 ^ 64 },
            trapnr := s.trapnr,
            cpuc_dtrace_flags := s.cpuc_dtrace_flags ||| E.K.CPU_DTRACE_BADADDR,
            cpuc_dtrace_illval := E.read_cr2,
            calls := s.calls } := by
  have hd' : ¬ dtrace_instr_size E s.regs.ip ≤ 0 := not_le.mpr hd
  simp [dtrace_handle_badaddr, dtrace_skip_instruction, DTRACE_CPUFLAG_SET, hd']

theorem instr_size_complete (E : trap_env) (addr : Nat)
    (h : (E.insn_get_length addr).1 = true) :
    dtrace_instr_size E addr = ((E.insn_get_length addr).2 : Int) := by
  simp [dtrace_instr_size, h]

theorem instr_size_incomplete (E : trap_env) (addr : Nat)
    (h : (E.insn_get_length addr).1 = false) :
    dtrace_instr_size E addr = -1 := by
  simp [dtrace_instr_size, h]

/-- C16: `dtrace_handle_badaddr` sets `CPU_DTRACE_BADADDR` and records
`read_cr2()` in `cpuc_dtrace_illval` in every case. The decoded length
`dtrace_instr_size` is `insn.length` when the decode is complete and the
failure value -1 when it is not. The handler stops at the `BUG_ON` exactly
when the decoded length is not positive, that is when the decode is
incomplete or `insn.length` is 0. Otherwise it returns with `ip` advanced by
the decoded length, which is `insn.length` (modulo `2 ^ 64`), and every other
field of the registers, the trap number and the handler record unchanged; for
an `ip` and a length below `2 ^ 64` the new `ip` differs from the old one. -/
theorem C16_handle_badaddr_records_then_skips_or_bugs (E : trap_env) (s : trap_state) :
    (dtrace_handle_badaddr E s).state.cpuc_dtrace_flags
      = s.cpuc_dtrace_flags ||| E.K.CPU_DTRACE_BADADDR ∧
    (dtrace_handle_badaddr E s).state.cpuc_dtrace_flags &&& E.K.CPU_DTRACE_BADADDR
      = E.K.CPU_DTRACE_BADADDR ∧
    (dtrace_handle_badaddr E s).state.cpuc_dtrace_illval = E.read_cr2 ∧
    ((E.insn_get_length s.regs.ip).1 = false → dtrace_instr_size E s.regs.ip = -1) ∧
    ((∃ st, dtrace_handle_badaddr E s = outcome.BUG st) ↔ dtrace_instr_size E s.regs.ip ≤ 0) ∧
    (dtrace_instr_size E s.regs.ip ≤ 0 →
      dtrace_handle_badaddr E s
        = outcome.BUG
            { s with
              cpuc_dtrace_flags := s.cpuc_dtrace_flags ||| E.K.CPU_DTRACE_BADADDR,
              cpuc_dtrace_illval := E.read_cr2 }) ∧
    (0 < dtrace_instr_size E s.regs.ip →
      dtrace_handle_badaddr E s
        = outcome.returned ()
            { regs :=
                { ip := (s.regs.ip + (dtrace_instr_size E s.regs.ip).toNat) % 2 ^ 64,
                  sp := s.regs.sp, bp := s.regs.bp, ax := s.regs.ax, cs := s.regs.cs,
                  flags := s.regs.flags },
              trapnr := s.trapnr,
              cpuc_dtrace_flags := s.cpuc_dtrace_flags ||| E.K.CPU_DTRACE_BADADDR,
              cpuc_dtrace_illval := E.read_cr2,
              calls := s.calls } ∧
      (s.regs.ip < 2 ^ 64 → dtrace_instr_size E s.regs.ip < 2 ^ 64 →
        (s.regs.ip + (dtrace_instr_size E s.regs.ip).toNat) % 2 ^ 64 ≠ s.regs.ip)) ∧
    ((E.insn_get_length s.regs.ip).1 = true →
      dtrace_instr_size E s.regs.ip = ((E.insn_get_length s.regs.ip).2 : Int)) ∧
    ((∃ st, dtrace_handle_badaddr E s = outcome.BUG st) ↔
      ((E.insn_get_length s.regs.ip).1 = false ∨ (E.insn_get_length s.regs.ip).2 = 0)) ∧
    ((E.insn_get_length s.regs.ip).1 = true → 0 < (E.insn_get_length s.regs.ip).2 →
      dtrace_handle_badaddr E s
        = outcome.returned ()
            { regs :=
                { ip := (s.regs.ip + (E.insn_get_length s.regs.ip).2) % 2 ^ 64,
                  sp := s.regs.sp, bp := s.regs.bp, ax := s.regs.ax, cs := s.regs.cs,
                  flags := s.regs.flags },
              trapnr := s.trapnr,
              cpuc_dtrace_flags := s.cpuc_dtrace_flags ||| E.K.CPU_DTRACE_BADADDR,
              cpuc_dtrace_illval := E.read_cr2,
              calls := s.calls }) := by
  have hstate : (dtrace_handle_badaddr E s).state.cpuc_dtrace_flags
        = s.cpuc_dtrace_flags ||| E.K.CPU_DTRACE_BADADDR ∧
      (dtrace_handle_badaddr E s).state.cpuc_dtrace_illval = E.read_cr2 := by
    by_cases hd : dtrace_instr_size E s.regs.ip ≤ 0
    · rw [handle_badaddr_bug E s hd]; exact ⟨rfl, rfl⟩
    · rw [handle_badaddr_returns E s (not_le.mp hd)]; exact ⟨rfl, rfl⟩
  have hbug : (∃ st, dtrace_handle_badaddr E s = outcome.BUG st) ↔
      dtrace_instr_size E s.regs.ip ≤ 0 := by
    constructor
    · rintro ⟨st, hst⟩
      by_contra hd
      rw [handle_badaddr_returns E s (not_le.mp hd)] at hst
      cases hst
    · intro hd
      exact ⟨_, handle_badaddr_bug E s hd⟩
  refine ⟨hstate.1, ?_, hstate.2, instr_size_incomplete E s.regs.ip, hbug,
    handle_badaddr_bug E s, ?_, instr_size_complete E s.regs.ip, ?_, ?_⟩
  · rw [hstate.1]; exact lor_land_self _ _
  · intro hd
    refine ⟨handle_badaddr_returns E s hd, ?_⟩
    intro hip hlen
    have e : (2 : Nat) ^ 64 = 18446744073709551616 := by norm_num
    have e' : (2 : Int) ^ 64 = 18446744073709551616 := by norm_num
    rw [e] at hip ⊢
    rw [e'] at hlen
    omega
  · rw [hbug]
    cases hc : (E.insn_get_length s.regs.ip).1 with
    | false =>
      rw [instr_size_incomplete E s.regs.ip hc]
      simp
    | true =>
      rw [instr_size_complete E s.regs.ip hc]
      simp
  · intro hc hpos
    have hsz := instr_size_complete E s.regs.ip hc
    have hd : 0 < dtrace_instr_size E s.regs.ip := by
      rw [hsz]; exact_mod_cast hpos
    rw [handle_badaddr_returns E s hd, hsz]
    simp

/-- Witness for C16: with a decoder that completes a three-byte instruction
at `0x5000`, the handler returns with `ip` moved from `0x5000` to `0x5003`,
`CPU_DTRACE_BADADDR` set and the faulting address recorded. -/
theorem C16_handle_badaddr_records_then_skips_or_bugs_witness :
    dtrace_handle_badaddr
        { sample_env with insn_get_length := fun a => if a = 0x5000 then (true, 3) else (false, 0) }
        (sample_state 0x5000 14 1)
      = outcome.returned ()
          { regs := ⟨0x5003, 0x7ffd0000, 0x7ffd0040, 0, 0x10, 0x246⟩, trapnr := 14,
            cpuc_dtrace_flags := 5, cpuc_dtrace_illval := 0xdead000, calls := [] } :=
  (C16_handle_badaddr_records_then_skips_or_bugs
    { sample_env with insn_get_length := fun a => if a = 0x5000 then (true, 3) else (false, 0) }
    (sample_state 0x5000 14 1)).2.2.2.2.2.2.2.2.2 rfl (by decide)

theorem case_DIE_TRAP_flags (E : trap_env) (R : invop_hdlrs) (orig_trapnr : Int)
    (s : trap_state) :
    (case_DIE_TRAP E R orig_trapnr s).state.cpuc_dtrace_flags = s.cpuc_dtrace_flags := by
  unfold case_DIE_TRAP
  simp only []
  split_ifs <;> rfl

theorem case_DIE_INT3_flags (E : trap_env) (R : invop_hdlrs) (s : trap_state) :
    (case_DIE_INT3 E R s).state.cpuc_dtrace_flags = s.cpuc_dtrace_flags := by
  unfold case_DIE_INT3
  simp only []
  split_ifs <;> rfl

theorem nofault_path_flags (E : trap_env) (s : trap_state) :
    (nofault_path E s).state.cpuc_dtrace_flags = s.cpuc_dtrace_flags ∨
    (nofault_path E s).state.cpuc_dtrace_flags
      = s.cpuc_dtrace_flags ||| E.K.CPU_DTRACE_BADADDR := by
  unfold nofault_path
  by_cases hf : DTRACE_CPUFLAG_ISSET s E.K.CPU_DTRACE_NOFAULT = true
  · right
    by_cases hd : dtrace_instr_size E s.regs.ip ≤ 0
    · simp [hf, handle_badaddr_bug E s hd, outcome.state]
    · simp [hf, handle_badaddr_returns E s (not_le.mp hd), outcome.state]
  · left
    simp [hf, outcome.state]

theorem die_notifier_flags (E : trap_env) (R : invop_hdlrs) (val : die_val) (s : trap_state) :
    (dtrace_die_notifier E R val s).state.cpuc_dtrace_flags = s.cpuc_dtrace_flags ∨
    (dtrace_die_notifier E R val s).state.cpuc_dtrace_flags
      = s.cpuc_dtrace_flags ||| E.K.CPU_DTRACE_BADADDR := by
  cases val with
  | DIE_PAGE_FAULT => exact nofault_path_flags E s
  | DIE_GPF =>
    by_cases hopc : gpf_reclassified (E.text s.regs.ip)
    · left
      rw [die_notifier_gpf_reclassified E R s hopc]
      exact case_DIE_TRAP_flags E R s.trapnr { s with trapnr := 6 }
    · rw [die_notifier_gpf_other E R s hopc]
      exact nofault_path_flags E s
  | DIE_TRAP => left; exact case_DIE_TRAP_flags E R 0 s
  | DIE_INT3 => left; exact case_DIE_INT3_flags E R s
  | DIE_OTHER n => left; rfl

/-- C19: the per-CPU flags are only ever added to. After
`dtrace_die_notifier` on any fault kind, and after `dtrace_handle_badaddr`
(whether they return or stop at the `BUG_ON`), the flag word is the old one
or the old one with `CPU_DTRACE_BADADDR` or-ed in, so every bit set before is
still set. `CPU_DTRACE_NOFAULT` is never the mask of a write: when it shares
no bit with `CPU_DTRACE_BADADDR` its bits are the same before and after. -/
theorem C19_flags_only_set (E : trap_env) (R : invop_hdlrs) (val : die_val) (s : trap_state) :
    ((dtrace_die_notifier E R val s).state.cpuc_dtrace_flags = s.cpuc_dtrace_flags ∨
      (dtrace_die_notifier E R val s).state.cpuc_dtrace_flags
        = s.cpuc_dtrace_flags ||| E.K.CPU_DTRACE_BADADDR) ∧
    (dtrace_handle_badaddr E s).state.cpuc_dtrace_flags
      = s.cpuc_dtrace_flags ||| E.K.CPU_DTRACE_BADADDR ∧
    (∀ i : Nat, s.cpuc_dtrace_flags.testBit i = true →
      (dtrace_die_notifier E R val s).state.cpuc_dtrace_flags.testBit i = true ∧
      (dtrace_handle_badaddr E s).state.cpuc_dtrace_flags.testBit i = true) ∧
    (E.K.CPU_DTRACE_BADADDR &&& E.K.CPU_DTRACE_NOFAULT = 0 →
      (dtrace_die_notifier E R val s).state.cpuc_dtrace_flags &&& E.K.CPU_DTRACE_NOFAULT
        = s.cpuc_dtrace_flags &&& E.K.CPU_DTRACE_NOFAULT ∧
      (dtrace_handle_badaddr E s).state.cpuc_dtrace_flags &&& E.K.CPU_DTRACE_NOFAULT
        = s.cpuc_dtrace_flags &&& E.K.CPU_DTRACE_NOFAULT) := by
  have hn := die_notifier_flags E R val s
  have hb : (dtrace_handle_badaddr E s).state.cpuc_dtrace_flags
      = s.cpuc_dtrace_flags ||| E.K.CPU_DTRACE_BADADDR := by
    by_cases hd : dtrace_instr_size E s.regs.ip ≤ 0
    · rw [handle_badaddr_bug E s hd]; rfl
    · rw [handle_badaddr_returns E s (not_le.mp hd)]; rfl
  refine ⟨hn, hb, ?_, ?_⟩
  · intro i hi
    refine ⟨?_, ?_⟩
    · rcases hn with h | h
      · rw [h]; exact hi
      · rw [h]; exact testBit_lor_of_left _ _ i hi
    · rw [hb]; exact testBit_lor_of_left _ _ i hi
  · intro hdis
    refine ⟨?_, ?_⟩
    · rcases hn with h | h
      · rw [h]
      · rw [h]; exact lor_land_disjoint _ _ _ hdis
    · rw [hb]; exact lor_land_disjoint _ _ _ hdis

/-- C20: for every `val` other than `DIE_PAGE_FAULT`, `DIE_GPF`, `DIE_TRAP`
and `DIE_INT3`, and for every `DIE_TRAP` whose trap number is not 6, the
notifier returns `NOTIFY_DONE` and the whole state is as it was: registers,
trap number, per-CPU flags and illegal-value slot unchanged, no handler
called. -/
theorem C20_other_kinds_declined (E : trap_env) (R : invop_hdlrs) (val : die_val)
    (s : trap_state)
    (h : (val ≠ die_val.DIE_PAGE_FAULT ∧ val ≠ die_val.DIE_GPF ∧ val ≠ die_val.DIE_TRAP
            ∧ val ≠ die_val.DIE_INT3) ∨
         (val = die_val.DIE_TRAP ∧ s.trapnr ≠ 6)) :
    dtrace_die_notifier E R val s = outcome.returned (E.K.NOTIFY_DONE : Int) s := by
  rcases h with ⟨h1, h2, h3, h4⟩ | ⟨hv, ht⟩
  · cases val with
    | DIE_PAGE_FAULT => exact absurd rfl h1
    | DIE_GPF => exact absurd rfl h2
    | DIE_TRAP => exact absurd rfl h3
    | DIE_INT3 => exact absurd rfl h4
    | DIE_OTHER n => rfl
  · subst hv
    simp [dtrace_die_notifier, case_DIE_TRAP, ht]

/-- Witness for C20: a general-protection trap number (13) delivered as
`DIE_TRAP` with two handlers registered is declined untouched. -/
theorem C20_other_kinds_declined_witness :
    dtrace_die_notifier sample_env [7, 9] die_val.DIE_TRAP (sample_state 0x3000 13 1)
      = outcome.returned (sample_env.K.NOTIFY_DONE : Int) (sample_state 0x3000 13 1) :=
  C20_other_kinds_declined sample_env [7, 9] die_val.DIE_TRAP (sample_state 0x3000 13 1)
    (Or.inr ⟨rfl, by decide⟩)

/-! ## Claims on the code patch primitive -/

/-- C17: `dtrace_invop_enable (a, b)` and `dtrace_invop_disable (a, b)` each
give a text memory that holds `b` at `a` and is unchanged at every other
address, for every address `a` (no address is refused). The two are the same
function, and enabling at `a` with a new byte and then disabling with the
byte that was at `a` gives back the original memory. -/
theorem C17_enable_disable_write_one_byte (text : Nat → Nat) (a b : Nat) :
    dtrace_invop_enable text a b a = b ∧
    (∀ a1 : Nat, a1 ≠ a → dtrace_invop_enable text a b a1 = text a1) ∧
    dtrace_invop_disable text a b a = b ∧
    (∀ a1 : Nat, a1 ≠ a → dtrace_invop_disable text a b a1 = text a1) ∧
    dtrace_invop_enable = dtrace_invop_disable ∧
    (∀ new : Nat, dtrace_invop_disable (dtrace_invop_enable text a new) a (text a) = text) := by
  have hat : ∀ (t : Nat → Nat) (x : Nat), text_poke t a [x] 1 a = x := by
    intro t x
    simp [text_poke]
  have hoff : ∀ (t : Nat → Nat) (x a1 : Nat), a1 ≠ a → text_poke t a [x] 1 a1 = t a1 := by
    intro t x a1 hne
    have hc : ¬ (a ≤ a1 ∧ a1 < a + 1) := by omega
    simp only [text_poke, hc, if_false]
  refine ⟨hat text b, fun a1 h => hoff text b a1 h, hat text b, fun a1 h => hoff text b a1 h,
    rfl, ?_⟩
  intro new
  funext a1
  by_cases h : a1 = a
  · subst h
    exact hat _ _
  · show text_poke (text_poke text a [new] 1) a [text a] 1 a1 = text a1
    rw [hoff _ _ a1 h, hoff _ _ a1 h]

end DtraceUtil
